import Mathlib

/-!
# file-geocoder: the record geocoding pipeline of `bin/mongo-google-geocoder.js`

A shallow embedding of the script: the address builder (lines 115-118), the
geocoder callback that interprets a response (lines 121-175), the store
query and update it is wrapped in (lines 102-113, 177-187), the summary
(lines 192-195) and the choice of the export format (lines 57-73, 197-216).

Modelling choices, all of them visible in the definitions below:

* JavaScript values are the type `JsVal`.  A number is carried by its
  canonical `ToString` rendering, the only thing the script does with a
  number being to copy it or to put it into a string.
* A stored document is its `_id` together with the association list of its
  other own properties, in property order.  Property access `doc[name]`
  reads the own properties and, after them, the properties every object
  inherits from `Object.prototype`.
* The datastore (NeDB) is a list of documents; `find` with
  `{GeocodeStatus: {$exists: false}}` is a filter and `update` with
  `{_id: id}` and `$set` rewrites the first document carrying that `_id`.
  An update is carried out after the callback that asked for it has
  returned; the updates asked for are carried out in the order of the calls.
* A geocoder response is the part of the JSON document the callback reads;
  every member the callback dereferences (`results`, its first element,
  `geometry`, `location`, `location_type`, `address_components`) may be
  absent.
* `async.each` calls the iterator for every document in turn.  The
  geocoding client answers an empty address at once, with an error, inside
  the call; every other call is answered later, and the answers come in an
  order the script does not choose: a run takes a `Schedule`, the order of
  arrival of the answers and, for a run that ends in an exception, the
  number of updates asked for that were not carried out any more.
* An exception thrown in a callback is not caught anywhere (line 167
  re-throws it), so it ends the process: the run is `aborted`.  The pause of
  line 182 changes no state and is left out.
-/

namespace Geocoder

/-! ## JavaScript values -/

/-- JavaScript values.  `num shown` is the number whose `ToString` is `shown`,
`fn name` the built-in function of that name. -/
inductive JsVal where
  | undefined
  | null
  | bool (b : Bool)
  | num (shown : String)
  | str (s : String)
  | arr (items : List JsVal)
  | obj (fields : List (String × JsVal))
  | fn (name : String)

mutual
/-- The abstract operation `ToString`. -/
def JsVal.toStr : JsVal → String
  | .undefined => "undefined"
  | .null => "null"
  | .bool true => "true"
  | .bool false => "false"
  | .num shown => shown
  | .str s => s
  | .arr items => JsVal.joinItems items
  | .obj _ => "[object Object]"
  | .fn name => "function " ++ name ++ "() \x7b [native code] \x7d"
termination_by structural v => v
/-- The rendering `Array.prototype.toString` gives an array: its elements
joined with a comma, `undefined` and `null` elements rendered as nothing. -/
def JsVal.joinItems : List JsVal → String
  | [] => ""
  | v :: rest =>
    (match v with
      | .undefined => ""
      | .null => ""
      | w => JsVal.toStr w)
      ++ (match rest with
        | [] => ""
        | _ :: _ => ",")
      ++ JsVal.joinItems rest
termination_by structural l => l
end

/-- The string `Array.prototype.join` makes of one element: the empty string
for `undefined` and `null`, `ToString` of the element otherwise. -/
def JsVal.seg : JsVal → String
  | .undefined => ""
  | .null => ""
  | v => v.toStr

/-- The method `Array.prototype.join`: start from the first element and append,
for every further element, the separator and the element. -/
def jsJoin (sep : String) : List JsVal → String
  | [] => ""
  | v :: rest => rest.foldl (fun r x => r ++ sep ++ x.seg) v.seg

/-- Splitting a list of characters at every occurrence of `sep`. -/
def splitChars (sep : Char) : List Char → List (List Char)
  | [] => [[]]
  | c :: cs =>
    match splitChars sep cs with
    | [] => [[]]
    | w :: ws => if c = sep then [] :: w :: ws else (c :: w) :: ws

/-- The method `String.prototype.split` with a separator of one character. -/
def jsSplit (s : String) (sep : Char) : List String :=
  (splitChars sep s.data).map String.mk

/-- The method `String.prototype.toLowerCase`, on the ASCII letters. -/
def jsToLowerCase (s : String) : String :=
  String.mk (s.data.map Char.toLower)

/-! ## Records -/

/-- The own properties of an object, in property order. -/
abbrev Fields := List (String × JsVal)

/-- The assignment `obj[name] = v`: overwrite the property in place when the
object has it, append it otherwise. -/
def setField (name : String) (v : JsVal) : Fields → Fields
  | [] => [(name, v)]
  | (k, w) :: rest => if k = name then (k, v) :: rest else (k, w) :: setField name v rest

/-- A document of the store: its `_id` and its other properties. -/
structure Doc where
  _id : String
  fields : Fields

/-- The names of the functions an object inherits from `Object.prototype`
under their own name. -/
def prototypeMethods : List String :=
  ["toString", "toLocaleString", "valueOf", "hasOwnProperty", "isPrototypeOf",
   "propertyIsEnumerable", "__defineGetter__", "__defineSetter__", "__lookupGetter__",
   "__lookupSetter__"]

/-- The property an object inherits from `Object.prototype` under `name`, if
any: `constructor` is the function `Object`, `__proto__` the prototype
itself, an object. -/
def inherited (name : String) : Option JsVal :=
  if name = "constructor" then some (.fn "Object")
  else if name = "__proto__" then some (.obj [])
  else if name ∈ prototypeMethods then some (.fn name)
  else none

/-- Property access `doc[name]`, line 117: the own property when the document
has it, else the inherited one, else `undefined`. -/
def Doc.get (doc : Doc) (name : String) : JsVal :=
  if name = "_id" then .str doc._id
  else match doc.fields.lookup name with
    | some v => v
    | none => (inherited name).getD .undefined

/-- The document has no property `name` of its own. -/
def Doc.lacks (doc : Doc) (name : String) : Prop :=
  name ≠ "_id" ∧ doc.fields.lookup name = none

/-! ## The address builder (lines 115-118) -/

/-- The expression `names.map(function(value) { return doc[value]; }).join(', ')`. -/
def buildAddress (doc : Doc) (names : List String) : String :=
  jsJoin ", " (names.map doc.get)

/-- The address of a document, lines 116-118: `argv.fields.split(',')`, mapped
and joined. -/
def address (argvFields : String) (doc : Doc) : String :=
  buildAddress doc (jsSplit argvFields ',')

mutual
/-- The text of a value of a record, as the specification has it in an
address: a string as it is, a number and a boolean as they are written,
nothing for `null`, the texts of the elements of a list with commas between
them. -/
def specText : JsVal → String
  | .str s => s
  | .num shown => shown
  | .bool b => if b then "true" else "false"
  | .null => ""
  | .undefined => ""
  | .arr items => specTexts items
  | .obj _ => "[object Object]"
  | .fn name => "function " ++ name ++ "() \x7b [native code] \x7d"
termination_by structural v => v
/-- The texts of the elements of a list, with commas between them. -/
def specTexts : List JsVal → String
  | [] => ""
  | v :: rest =>
    match rest with
    | [] => specText v
    | _ :: _ => specText v ++ "," ++ specTexts rest
termination_by structural l => l
end

/-- The segment the specification gives a field: the text of the value of the
field, and nothing for a field the record lacks. -/
def specSegment (doc : Doc) (name : String) : String :=
  if name = "_id" then doc._id
  else match doc.fields.lookup name with
    | none => ""
    | some v => specText v

/-- The address as the specification words it: the segments of the named
fields, in the given order, with `", "` between them. -/
def specAddress (doc : Doc) (names : List String) : String :=
  String.intercalate ", " (names.map (specSegment doc))

/-! ## The geocoder response -/

/-- An entry of `address_components`.  A missing `long_name` is `undefined`. -/
structure Component where
  long_name : JsVal
  types : List String

/-- The object `geometry.location`. -/
structure Location where
  lat : JsVal
  lng : JsVal

/-- The object `geometry` of a result; `location_type` is `undefined` when
it is missing, and `location` may be missing. -/
structure Geometry where
  location_type : JsVal
  location : Option Location

/-- An element of `results`; both members the callback reads may be missing. -/
structure GeoResult where
  geometry : Option Geometry
  address_components : Option (List Component)

/-- The document `data` handed to the callback: its top-level `status` (when
it is a string) and its `results` array (when there is one). -/
structure Response where
  status : Option String
  results : Option (List GeoResult)

/-- What the geocoding client calls back with: `err` a failure, with `data`
undefined, or a response document (the callback never looks at `err`). -/
inductive Reply where
  | err
  | data (d : Response)

/-! ## The callback of `geocoder.geocode` (lines 121-175) -/

/-- The chain `_(components).filter(function(v) { return _.contains(v.types,
category); }).first(1).pluck('long_name').value()[0]`, lines 139-163.  Indexing
an empty array gives `undefined`; `_.filter` of a missing collection is the
empty array. -/
def firstLongName (category : String) (components : Option (List Component)) : JsVal :=
  (((((components.getD []).filter (fun v => v.types.contains category)).take 1).map
    (fun v => v.long_name)).head?).getD .undefined

/-- Lines 171-175: the five assignments to `updates`. -/
def finishUpdates (updates : Fields) (status : JsVal)
    (locality administrative_area_level_1 country : JsVal) (address : String) : Fields :=
  setField "FullAddress" (.str address)
    (setField "GeocodeCountry" country
      (setField "GeocodeAdminAreaLevel1" administrative_area_level_1
        (setField "GeocodeLocality" locality
          (setField "GeocodeStatus" status updates))))

/-- The body of the callback up to line 175: the status pushed on `summary`
and the object `updates`, or `none` when the body throws (a `TypeError` on
reading a member of `undefined`; the handler of line 165 logs `data` and
throws the error again). -/
def geocodeCallback (address : String) : Reply → Option (JsVal × Fields)
  | .err => none
  | .data d =>
    if d.status = some "ZERO_RESULTS" then
      some (.str "ZERO_RESULTS",
        finishUpdates [] (.str "ZERO_RESULTS") (.str "") (.str "") (.str "") address)
    else
      match d.results with
      | none => none
      | some [] => none
      | some (r :: _) =>
        match r.geometry with
        | none => none
        | some g =>
          match g.location with
          | none => none
          | some coords =>
            some (g.location_type,
              finishUpdates [("GeocodeLat", coords.lat), ("GeocodeLng", coords.lng)]
                g.location_type
                (firstLongName "locality" r.address_components)
                (firstLongName "administrative_area_level_1" r.address_components)
                (firstLongName "country" r.address_components)
                address)

/-! ## The store -/

/-- The collection of the datastore. -/
abbrev Store := List Doc

/-- The test `{$exists: true}` on `GeocodeStatus`: the document has the field
and its value is not `undefined`. -/
def hasStatus (doc : Doc) : Bool :=
  match doc.fields.lookup "GeocodeStatus" with
  | none => false
  | some .undefined => false
  | some _ => true

/-- The query `db.find({GeocodeStatus: {$exists: false}})`, line 103. -/
def findUnprocessed (db : Store) : List Doc :=
  db.filter (fun d => !hasStatus d)

/-- The modifier `{$set: updates}` on the fields of a document. -/
def applySet (updates : Fields) (fields : Fields) : Fields :=
  updates.foldl (fun acc kv => setField kv.1 kv.2 acc) fields

/-- The document after `$set`. -/
def Doc.set (updates : Fields) (doc : Doc) : Doc :=
  { doc with fields := applySet updates doc.fields }

/-- The call `db.update({_id: id}, {$set: updates})`, line 177: without the
`multi` option the first document that matches is modified. -/
def update (id : String) (updates : Fields) : Store → Store
  | [] => []
  | d :: rest => if d._id = id then d.set updates :: rest else d :: update id updates rest

/-- The updates asked for, carried out one after the other. -/
def applyUpdates (issued : List (String × Fields)) (db : Store) : Store :=
  issued.foldl (fun acc u => update u.1 u.2 acc) db

/-- The status a document carries in the store, when it is a string. -/
def persistedStatus (db : Store) (id : String) : Option String :=
  match db.find? (fun d => d._id = id) with
  | none => none
  | some d =>
    match d.fields.lookup "GeocodeStatus" with
    | some (.str s) => some s
    | _ => none

/-! ## The pipeline driver (lines 99-195) -/

/-- The state of a run: the store, the globals `summary` and `counter`, and two
records of what was done, the calls of `geocoder.geocode` (document and
address) and the documents whose update was carried out. -/
structure RunState where
  db : Store
  summary : List JsVal
  counter : Nat
  geocoded : List (String × String)
  updated : List String

/-- How the iteration over the documents ends: every callback returned, or one
threw. -/
inductive Run where
  | completed (st : RunState)
  | aborted (st : RunState)

/-- The state a run ends in. -/
def Run.state : Run → RunState
  | .completed st => st
  | .aborted st => st

/-- What the script does not choose in a run: the order in which the answers
of the geocoder arrive, as the numbers of the calls, and, for a run that an
exception ends, how many of the updates asked for last were not carried out
any more. -/
structure Schedule where
  arrival : List Nat
  lost : Nat

/-- A schedule for `n` calls: every call is answered once. -/
def Schedule.valid (s : Schedule) (n : Nat) : Prop :=
  s.arrival.Perm (List.range n)

instance (s : Schedule) (n : Nat) : Decidable (s.valid n) := by
  unfold Schedule.valid
  infer_instance

/-- The calls in the order of arrival of their answers, each with its
document. -/
def jobs (arrival : List Nat) (docs : List Doc) : List (Nat × Doc) :=
  arrival.filterMap (fun n => (docs[n]?).map (fun d => (n, d)))

/-- The documents the iterator passes to the geocoder, lines 113-121: the
client answers an empty address inside the call, with an error, and the
callback throws on it (line 123), inside the loop of `async.each`; the
documents after that one are not reached. -/
def called (argvFields : String) : List Doc → List Doc
  | [] => []
  | d :: rest => if address argvFields d = "" then [d] else d :: called argvFields rest

/-- Some call of the iterator ends in an exception. -/
def throwsAtOnce (argvFields : String) (docs : List Doc) : Bool :=
  docs.any (fun d => decide (address argvFields d = ""))

/-- The calls of the iterator, lines 113-121 and 189: `async.each` calls the
iterator for every document in turn, and each of these calls builds the
address and starts the request of `geocoder.geocode`, whose callback runs
later, when the response has come.  This is the state when the loop is left
and no callback of a request has run yet. -/
def dispatch (argvFields : String) (docs : List Doc) (st : RunState) : RunState :=
  { st with geocoded := st.geocoded ++
      (called argvFields docs).map (fun d => (d._id, address argvFields d)) }

/-- What the callbacks have done when the last of them has returned or one has
thrown: the statuses pushed, the updates asked for, and whether one threw. -/
structure Answered where
  summary : List JsVal
  issued : List (String × Fields)
  thrown : Bool

/-- The callback of the call number `job.1`, made for the document `job.2`, up
to line 175: the call is answered `geo job.1 address`. -/
def answer (geo : Nat → String → Reply) (argvFields : String) (job : Nat × Doc) :
    Option (JsVal × Fields) :=
  geocodeCallback (address argvFields job.2) (geo job.1 (address argvFields job.2))

/-- The callbacks of `geocoder.geocode`, lines 121-177, in the order of arrival
of the answers.  Each callback interprets the response, pushes the status
and asks for the update. -/
def callbacks (geo : Nat → String → Reply) (argvFields : String) :
    List (Nat × Doc) → List JsVal → List (String × Fields) → Answered
  | [], summary, issued => { summary := summary, issued := issued, thrown := false }
  | job :: rest, summary, issued =>
    match answer geo argvFields job with
    | none => { summary := summary, issued := issued, thrown := true }
    | some (status, updates) =>
      callbacks geo argvFields rest (summary ++ [status]) (issued ++ [(job.2._id, updates)])

/-- The state when the updates `applied` have been carried out and their
callbacks (lines 177-187) have run. -/
def settle (applied : List (String × Fields)) (summary : List JsVal) (st : RunState) :
    RunState :=
  { db := applyUpdates applied st.db
    summary := summary
    counter := st.counter + applied.length
    geocoded := st.geocoded
    updated := st.updated ++ applied.map Prod.fst }

/-- The iteration `async.each(docs, ...)`, lines 112-191: the requests are
started for the documents in turn, then their callbacks run as the answers
arrive, and the updates they ask for are carried out. -/
def eachDoc (geo : Nat → String → Reply) (argvFields : String) (sched : Schedule)
    (docs : List Doc) (st : RunState) : Run :=
  if throwsAtOnce argvFields docs then .aborted (dispatch argvFields docs st)
  else if (callbacks geo argvFields (jobs sched.arrival docs) st.summary []).thrown then
    .aborted (settle
      ((callbacks geo argvFields (jobs sched.arrival docs) st.summary []).issued.take
        ((callbacks geo argvFields (jobs sched.arrival docs) st.summary []).issued.length
          - sched.lost))
      (callbacks geo argvFields (jobs sched.arrival docs) st.summary []).summary
      (dispatch argvFields docs st))
  else
    .completed (settle
      (callbacks geo argvFields (jobs sched.arrival docs) st.summary []).issued
      (callbacks geo argvFields (jobs sched.arrival docs) st.summary []).summary
      (dispatch argvFields docs st))

/-- The number of calls of `geocoder.geocode` that are in flight in a state in
which `answered` callbacks have run. -/
def inFlight (st : RunState) (answered : Nat) : Nat :=
  st.geocoded.length - answered

/-- One more occurrence of `key` in a table of counts. -/
def bump (key : String) : List (String × Nat) → List (String × Nat)
  | [] => [(key, 1)]
  | (k, n) :: rest => if k = key then (k, n + 1) :: rest else (k, n) :: bump key rest

/-- One step of `_.countBy`: `hasOwnProperty.call(result, key) ? result[key]++
: result[key] = 1`.  The key of a property is a string; assigning a number to
`__proto__` leaves a plain object as it is. -/
def countStep (result : List (String × Nat)) (v : JsVal) : List (String × Nat) :=
  if v.toStr = "__proto__" then result else bump v.toStr result

/-- The call `_.countBy(summary, function(v) { return v; })`, line 195: the own
properties of the object it returns, each with its count, in the order in
which they were added (the order in which they are printed, for keys that are
not array indices). -/
def countBy (summary : List JsVal) : List (String × Nat) :=
  summary.foldl countStep []

/-! ## Input and output formats (lines 57-73 and 197-216) -/

/-- The two format families. -/
inductive Format where
  | json
  | csv
  deriving DecidableEq, Repr

/-- Line 71: the parser the input file is read with. -/
def inputFormat (argvType : String) : Format :=
  if jsToLowerCase argvType = "json" then .json else .csv

/-- Line 57: `argv.file.split('.')[0]`. -/
def filename (argvFile : String) : String :=
  (jsSplit argvFile '.').headD ""

/-- What the export writes: the path, the format, and the documents. -/
structure Export where
  path : String
  format : Format
  docs : List Fields

/-- Lines 198-214: every document of the store, `_id` deleted, written as CSV
when `argv.type === 'csv'` and as JSON otherwise. -/
def exportRecords (argvFile argvType : String) (db : Store) : Export :=
  if argvType = "csv" then
    { path := filename argvFile ++ "-output.csv", format := .csv, docs := db.map (fun d => d.fields) }
  else
    { path := filename argvFile ++ "-output.json", format := .json, docs := db.map (fun d => d.fields) }

/-- The options of the command line the pipeline reads. -/
structure Argv where
  file : String
  fields : String
  type : String

/-- How a run of the script ends: with the summary printed and the export
written, or with an uncaught exception. -/
inductive Outcome where
  | finished (st : RunState) (printed : List (String × Nat)) (written : Export)
  | crashed (st : RunState)

/-- The state an outcome carries. -/
def Outcome.state : Outcome → RunState
  | .finished st _ _ => st
  | .crashed st => st

/-- The state of the store and of the globals when line 103 runs. -/
def initial (db : Store) : RunState :=
  { db := db, summary := [], counter := 0, geocoded := [], updated := [] }

/-- The script from line 99 on, over the store as it stands after the import
or as it was reused.  The progress bar of lines 105-109 refuses a total of
zero with an exception, before the iteration is entered. -/
def pipeline (argv : Argv) (geo : Nat → String → Reply) (sched : Schedule) (db : Store) :
    Outcome :=
  match findUnprocessed db with
  | [] => .crashed (initial db)
  | d :: ds =>
    match eachDoc geo argv.fields sched (d :: ds) (initial db) with
    | .completed st =>
      .finished st (countBy st.summary) (exportRecords argv.file argv.type st.db)
    | .aborted st => .crashed st

/-- The documents of the store have pairwise different `_id`s (the datastore
keeps a unique index on `_id`). -/
def uniqueIds (db : Store) : Prop :=
  (db.map (fun d => d._id)).Nodup

instance (db : Store) : Decidable (uniqueIds db) := by
  unfold uniqueIds
  infer_instance

/-- The three categories the callback extracts, each with the field of
`updates` it is assigned to (lines 172-174). -/
def categoryFields : List (String × String) :=
  [("locality", "GeocodeLocality"),
   ("administrative_area_level_1", "GeocodeAdminAreaLevel1"),
   ("country", "GeocodeCountry")]

/-! ## Sample data -/

/-- A resolved response for Paris. -/
def parisResponse : Response :=
  { status := some "OK"
    results := some [
      { geometry := some
          { location_type := .str "APPROXIMATE"
            location := some { lat := .num "48.856614", lng := .num "2.3522219" } }
        address_components := some [
          { long_name := .str "Paris", types := ["locality", "political"] },
          { long_name := .str "Ile-de-France", types := ["administrative_area_level_1", "political"] },
          { long_name := .str "France", types := ["country", "political"] }] }] }

/-- The components of a result for a country: none is a locality. -/
def franceComponents : List Component :=
  [{ long_name := .str "France", types := ["country", "political"] }]

/-- A resolved response for a country. -/
def franceResponse : Response :=
  { status := some "OK"
    results := some [
      { geometry := some
          { location_type := .str "APPROXIMATE"
            location := some { lat := .num "46.227638", lng := .num "2.213749" } }
        address_components := some franceComponents }] }

/-- The response for an address the geocoder does not find. -/
def zeroResponse : Response :=
  { status := some "ZERO_RESULTS", results := some [] }

/-- A response that is not `ZERO_RESULTS` and has no result. -/
def deniedResponse : Response :=
  { status := some "REQUEST_DENIED", results := some [] }

/-- A response whose geometry has a location and no `location_type`. -/
def bareResponse : Response :=
  { status := some "OK"
    results := some [
      { geometry := some
          { location_type := .undefined
            location := some { lat := .num "48.856614", lng := .num "2.3522219" } }
        address_components := some [] }] }

/-- A response whose `location_type` is the string `__proto__`. -/
def protoResponse : Response :=
  { status := some "OK"
    results := some [
      { geometry := some
          { location_type := .str "__proto__"
            location := some { lat := .num "48.856614", lng := .num "2.3522219" } }
        address_components := some [] }] }

/-- A geocoder that knows Paris only. -/
def parisGeocoder : Nat → String → Reply :=
  fun _ address => if address = "Paris" then .data parisResponse else .data zeroResponse

/-- A geocoder whose second answer has no result. -/
def secondDenied : Nat → String → Reply :=
  fun n _ => if n = 1 then .data deniedResponse else .data parisResponse

/-- A geocoder that is not reachable. -/
def unreachable : Nat → String → Reply :=
  fun _ _ => .err

/-- A geocoder whose answers lack the `location_type`. -/
def bareGeocoder : Nat → String → Reply :=
  fun _ _ => .data bareResponse

/-- A geocoder whose answers have `__proto__` as `location_type`. -/
def protoGeocoder : Nat → String → Reply :=
  fun _ _ => .data protoResponse

/-- The options `-f cities.json -a city`. -/
def cityArgv : Argv :=
  { file := "cities.json", fields := "city", type := "json" }

/-- The answer comes in, nothing is lost: a schedule for one call. -/
def single : Schedule :=
  { arrival := [0], lost := 0 }

/-- The answers arrive in the order of the calls: a schedule for two calls. -/
def inOrder : Schedule :=
  { arrival := [0, 1], lost := 0 }

/-- The answers arrive in the order of the calls, and when a callback throws
the update asked for last is not carried out any more: a schedule for three
calls. -/
def lossy : Schedule :=
  { arrival := [0, 1, 2], lost := 1 }

/-- A store of one record, not geocoded. -/
def oneCity : Store :=
  [{ _id := "id1", fields := [("city", .str "Paris")] }]

/-- A store of two records, none geocoded. -/
def twoCities : Store :=
  [{ _id := "id1", fields := [("city", .str "Paris")] },
   { _id := "id2", fields := [("city", .str "NoSuchPlace12345")] }]

/-- A store of two records, none geocoded, the first without a city. -/
def cityMissing : Store :=
  [{ _id := "id1", fields := [("name", .str "Town hall")] },
   { _id := "id2", fields := [("city", .str "Paris")] }]

/-- A record that is not geocoded. -/
def lyon : Doc :=
  { _id := "id2", fields := [("city", .str "Lyon")] }

/-- A store of three records, none geocoded. -/
def threeCities : Store :=
  [{ _id := "id1", fields := [("city", .str "Paris")] },
   lyon,
   { _id := "id3", fields := [("city", .str "Nice")] }]

/-- A store of two records, the first geocoded by an earlier run. -/
def halfDone : Store :=
  [{ _id := "id1", fields := [("city", .str "Paris"), ("GeocodeStatus", .str "APPROXIMATE")] },
   { _id := "id2", fields := [("city", .str "NoSuchPlace12345")] }]

/-- The components of a result two of which are localities. -/
def bostonComponents : List Component :=
  [{ long_name := .str "Suffolk County", types := ["administrative_area_level_2", "political"] },
   { long_name := .str "Boston", types := ["locality", "political"] },
   { long_name := .str "Cambridge", types := ["locality", "political"] },
   { long_name := .str "Massachusetts", types := ["administrative_area_level_1", "political"] },
   { long_name := .str "United States", types := ["country", "political"] }]

/-- The location of the result for Boston. -/
def bostonLocation : Location :=
  { lat := .num "42.3600825", lng := .num "-71.0588801" }

/-- The geometry of the result for Boston. -/
def bostonGeometry : Geometry :=
  { location_type := .str "ROOFTOP", location := some bostonLocation }

/-- The result for Boston. -/
def bostonResult : GeoResult :=
  { geometry := some bostonGeometry, address_components := some bostonComponents }

/-- A resolved response for Boston. -/
def bostonResponse : Response :=
  { status := some "OK", results := some [bostonResult] }

/-- A record with values of several kinds. -/
def mixedRecord : Doc :=
  { _id := "a1"
    fields := [("zip", .num "62704"), ("open", .bool true), ("note", .null),
      ("tags", .arr [.str "a", .null, .arr [.str "b", .str "c"]]), ("meta", .obj [])] }

/-- The record `{city: "Springfield", state: "IL"}`. -/
def springfieldIL : Doc :=
  { _id := "a1", fields := [("city", .str "Springfield"), ("state", .str "IL")] }

/-- The record `{city: "Springfield"}`. -/
def springfield : Doc :=
  { _id := "a1", fields := [("city", .str "Springfield")] }

/-- The state a first run over the store of two cities ends in. -/
def firstRun : RunState :=
  (pipeline cityArgv parisGeocoder inOrder twoCities).state

/-- The state a run ends in when the response has no `location_type`. -/
def bareRun : RunState :=
  (pipeline cityArgv bareGeocoder single oneCity).state

/-- The state a run ends in when the `location_type` is `__proto__`. -/
def protoRun : RunState :=
  (pipeline cityArgv protoGeocoder single oneCity).state

/-- The state a run over the store of three cities ends in when the answer to
the second call has no result. -/
def abortedRun : RunState :=
  (pipeline cityArgv secondDenied lossy threeCities).state


/-! ## Lemmas on the rendering of values -/

theorem joinItems_cons (v : JsVal) (rest : List JsVal) :
    JsVal.joinItems (v :: rest)
      = v.seg ++ (match rest with
        | [] => ""
        | _ :: _ => ",") ++ JsVal.joinItems rest := by
  rw [JsVal.joinItems.eq_def]
  cases v <;> rfl

theorem toStr_arr (items : List JsVal) : JsVal.toStr (.arr items) = JsVal.joinItems items := by
  rw [JsVal.toStr.eq_def]

theorem specText_arr (items : List JsVal) : specText (.arr items) = specTexts items := by
  rw [specText.eq_def]

theorem specTexts_cons (v : JsVal) (rest : List JsVal) :
    specTexts (v :: rest)
      = match rest with
        | [] => specText v
        | _ :: _ => specText v ++ "," ++ specTexts rest := by
  rw [specTexts.eq_def]

mutual
theorem seg_eq_specText : ∀ v : JsVal, v.seg = specText v
  | .undefined => rfl
  | .null => rfl
  | .bool true => rfl
  | .bool false => rfl
  | .num _ => rfl
  | .str _ => rfl
  | .arr items => by
    show JsVal.toStr (.arr items) = specText (.arr items)
    rw [toStr_arr, specText_arr]
    exact joinItems_eq_specTexts items
  | .obj _ => rfl
  | .fn _ => rfl
theorem joinItems_eq_specTexts : ∀ l : List JsVal, JsVal.joinItems l = specTexts l
  | [] => rfl
  | v :: rest => by
    rw [joinItems_cons, specTexts_cons, seg_eq_specText v]
    cases rest with
    | nil => simp [JsVal.joinItems]
    | cons w ws =>
      simp only
      rw [joinItems_eq_specTexts (w :: ws)]
end


/-! ## Lemmas on fields and on the callback -/

theorem lookup_cons_eq {β : Type} (k a : String) (w : β) (rest : List (String × β)) :
    List.lookup k ((a, w) :: rest) = if k = a then some w else List.lookup k rest := by
  by_cases h : k = a
  · simp [List.lookup, h]
  · have hb : (k == a) = false := beq_false_of_ne h
    simp [List.lookup, h, hb]

theorem lookup_setField (name k : String) (v : JsVal) (fs : Fields) :
    (setField name v fs).lookup k = if k = name then some v else fs.lookup k := by
  induction fs with
  | nil => simp [setField, lookup_cons_eq]
  | cons kv rest ih =>
    obtain ⟨a, w⟩ := kv
    by_cases ha : a = name
    · subst ha
      by_cases h : k = a <;> simp [setField, lookup_cons_eq, h]
    · by_cases h : k = name
      · subst h
        have hka : k ≠ a := fun h' => ha h'.symm
        simp [setField, lookup_cons_eq, ha, hka, ih]
      · simp [setField, lookup_cons_eq, ha, ih, h]

theorem lookup_applySet (k : String) (u fs : Fields) :
    (applySet u fs).lookup k = (u.reverse.lookup k).or (fs.lookup k) := by
  induction u generalizing fs with
  | nil => simp [applySet]
  | cons kv rest ih =>
    have h := ih (setField kv.1 kv.2 fs)
    simp only [applySet, List.foldl] at h ⊢
    rw [h, lookup_setField, List.reverse_cons, List.lookup_append]
    by_cases hk : k = kv.1
    · subst hk
      cases hr : List.lookup kv.1 rest.reverse <;> simp [List.lookup]
    · have : (k == kv.1) = false := by simpa using hk
      cases hr : List.lookup k rest.reverse <;> simp [List.lookup, hk, this]

theorem geocodeCallback_zero (addr : String) (d : Response) (h : d.status = some "ZERO_RESULTS") :
    geocodeCallback addr (.data d) = some (.str "ZERO_RESULTS",
      [("GeocodeStatus", .str "ZERO_RESULTS"), ("GeocodeLocality", .str ""),
       ("GeocodeAdminAreaLevel1", .str ""), ("GeocodeCountry", .str ""),
       ("FullAddress", .str addr)]) := by
  simp only [geocodeCallback, h, if_true]
  rfl

theorem geocodeCallback_resolved (addr : String) (d : Response) (r : GeoResult)
    (rest : List GeoResult) (g : Geometry) (c : Location)
    (h : d.status ≠ some "ZERO_RESULTS") (hr : d.results = some (r :: rest))
    (hg : r.geometry = some g) (hc : g.location = some c) :
    geocodeCallback addr (.data d) = some (g.location_type,
      [("GeocodeLat", c.lat), ("GeocodeLng", c.lng), ("GeocodeStatus", g.location_type),
       ("GeocodeLocality", firstLongName "locality" r.address_components),
       ("GeocodeAdminAreaLevel1", firstLongName "administrative_area_level_1" r.address_components),
       ("GeocodeCountry", firstLongName "country" r.address_components),
       ("FullAddress", .str addr)]) := by
  simp only [geocodeCallback, h, if_false, hr, hg, hc]
  rfl

theorem geocodeCallback_sets_status (addr : String) (reply : Reply) (s : JsVal) (u : Fields)
    (h : geocodeCallback addr reply = some (s, u)) (fs : Fields) :
    (applySet u fs).lookup "GeocodeStatus" = some s := by
  rw [lookup_applySet]
  cases reply with
  | err => simp [geocodeCallback] at h
  | data d =>
    by_cases hz : d.status = some "ZERO_RESULTS"
    · rw [geocodeCallback_zero addr d hz] at h
      simp only [Option.some.injEq, Prod.mk.injEq] at h
      obtain ⟨h1, h2⟩ := h
      subst h1 h2
      rfl
    · cases hr : d.results with
      | none => simp [geocodeCallback, hz, hr] at h
      | some rs =>
        cases rs with
        | nil => simp [geocodeCallback, hz, hr] at h
        | cons r rest =>
          cases hg : r.geometry with
          | none => simp [geocodeCallback, hz, hr, hg] at h
          | some g =>
            cases hc : g.location with
            | none => simp [geocodeCallback, hz, hr, hg, hc] at h
            | some c =>
              rw [geocodeCallback_resolved addr d r rest g c hz hr hg hc] at h
              simp only [Option.some.injEq, Prod.mk.injEq] at h
              obtain ⟨h1, h2⟩ := h
              subst h1 h2
              rfl

theorem geocodeCallback_failed (addr : String) (reply : Reply)
    (h : reply = .err ∨ ∃ r, reply = .data r ∧ r.status ≠ some "ZERO_RESULTS" ∧
      (r.results = none ∨ r.results = some [] ∨
        ∃ res rest, r.results = some (res :: rest) ∧ res.geometry = none)) :
    geocodeCallback addr reply = none := by
  rcases h with h | ⟨r, h, hz, hr | hr | ⟨res, rest, hr, hg⟩⟩
  · subst h; rfl
  · subst h; simp [geocodeCallback, hz, hr]
  · subst h; simp [geocodeCallback, hz, hr]
  · subst h; simp [geocodeCallback, hz, hr, hg]

/-! ## Lemmas on the store -/

theorem set_id (u : Fields) (x : Doc) : (x.set u)._id = x._id := rfl

theorem update_eq_map (id : String) (u : Fields) (db : Store) (h : uniqueIds db) :
    update id u db = db.map (fun y => if y._id = id then y.set u else y) := by
  induction db with
  | nil => rfl
  | cons d rest ih =>
    have hn : d._id ∉ rest.map (fun d => d._id) ∧ (rest.map (fun d => d._id)).Nodup := by
      simpa [uniqueIds] using h
    by_cases hd : d._id = id
    · have hrest : rest.map (fun y => if y._id = id then y.set u else y) = rest := by
        conv_rhs => rw [← List.map_id rest]
        apply List.map_congr_left
        intro y hy
        have : y._id ≠ id := by
          intro hy'
          apply hn.1
          rw [hd, ← hy']
          exact List.mem_map_of_mem _ hy
        simp [this]
      simp [update, hd, hrest]
    · simp [update, hd, ih hn.2]

theorem map_uniqueIds (g : Doc → Doc) (hg : ∀ x, (g x)._id = x._id) (db : Store)
    (h : uniqueIds db) : uniqueIds (db.map g) := by
  unfold uniqueIds at *
  rw [List.map_map]
  have : ((fun d => d._id) ∘ g) = (fun d : Doc => d._id) := by
    funext x; exact hg x
  rw [this]
  exact h

theorem lookup_of_not_mem (us : List (String × Fields)) (id : String)
    (h : id ∉ us.map Prod.fst) : us.lookup id = none := by
  induction us with
  | nil => rfl
  | cons a rest ih =>
    obtain ⟨k, u⟩ := a
    simp only [List.map_cons, List.mem_cons, not_or] at h
    rw [lookup_cons_eq, if_neg h.1, ih h.2]

/-- The updates asked for, with pairwise different `_id`s, carried out on a
store: every document gets the update asked for under its `_id`, if any. -/
theorem applyUpdates_eq_map :
    ∀ (us : List (String × Fields)) (db : Store), uniqueIds db → (us.map Prod.fst).Nodup →
      applyUpdates us db = db.map (fun x =>
        match us.lookup x._id with
        | some u => x.set u
        | none => x) := by
  intro us
  induction us with
  | nil =>
    intro db _ _
    simp [applyUpdates]
  | cons a rest ih =>
    intro db h hn
    obtain ⟨id, u⟩ := a
    have hn2 : id ∉ rest.map Prod.fst ∧ (rest.map Prod.fst).Nodup := by simpa using hn
    have hstep : applyUpdates ((id, u) :: rest) db = applyUpdates rest (update id u db) := rfl
    rw [hstep, update_eq_map id u db h,
      ih _ (map_uniqueIds _ (fun x => by by_cases hx : x._id = id <;> simp [hx, set_id]) db h)
        hn2.2,
      List.map_map]
    apply List.map_congr_left
    intro x _
    by_cases hx : x._id = id
    · simp only [Function.comp, hx, if_true, set_id, lookup_cons_eq]
      rw [lookup_of_not_mem rest id hn2.1]
    · simp only [Function.comp, hx, if_false, lookup_cons_eq]

theorem mem_of_lookup (us : List (String × Fields)) (id : String) (u : Fields)
    (h : us.lookup id = some u) : (id, u) ∈ us := by
  induction us with
  | nil => simp at h
  | cons a rest ih =>
    obtain ⟨k, w⟩ := a
    rw [lookup_cons_eq] at h
    by_cases hk : id = k
    · simp only [hk, if_true, Option.some.injEq] at h
      subst h; subst hk
      exact List.mem_cons_self _ _
    · simp only [hk, if_false] at h
      exact List.mem_cons_of_mem _ (ih h)

theorem lookup_of_mem (us : List (String × Fields)) (id : String) (u : Fields)
    (hn : (us.map Prod.fst).Nodup) (h : (id, u) ∈ us) : us.lookup id = some u := by
  induction us with
  | nil => cases h
  | cons a rest ih =>
    obtain ⟨k, w⟩ := a
    have hn2 : k ∉ rest.map Prod.fst ∧ (rest.map Prod.fst).Nodup := by simpa using hn
    rw [lookup_cons_eq]
    rcases List.mem_cons.mp h with h1 | h1
    · simp only [Prod.mk.injEq] at h1
      simp [h1.1, h1.2]
    · have hne : id ≠ k := by
        intro he
        apply hn2.1
        rw [← he]
        exact List.mem_map.mpr ⟨(id, u), h1, rfl⟩
      simp only [hne, if_false]
      exact ih hn2.2 h1

/-! ## Lemmas on the callbacks and on the schedule -/

/-- What `callbacks` does: it runs the callbacks of a first part `done` of
the jobs, all of which return, and stops at the end of the jobs or at the first
callback that throws. -/
theorem callbacks_spec (geo : Nat → String → Reply) (f : String) :
    ∀ (js : List (Nat × Doc)) (summary : List JsVal) (issued : List (String × Fields)),
    ∃ m : Nat, m ≤ js.length ∧
      (∀ j ∈ js.take m, ∃ o, answer geo f j = some o) ∧
      (callbacks geo f js summary issued).summary
        = summary ++ (js.take m).filterMap (fun j => (answer geo f j).map Prod.fst) ∧
      (callbacks geo f js summary issued).issued
        = issued ++ (js.take m).filterMap
            (fun j => (answer geo f j).map (fun o => (j.2._id, o.2))) ∧
      (((callbacks geo f js summary issued).thrown = false ∧ m = js.length) ∨
       ((callbacks geo f js summary issued).thrown = true ∧
          ∃ j, js[m]? = some j ∧ answer geo f j = none)) := by
  intro js
  induction js with
  | nil =>
    intro summary issued
    exact ⟨0, le_refl _, by simp, by simp [callbacks], by simp [callbacks],
      Or.inl ⟨by simp [callbacks], rfl⟩⟩
  | cons j rest ih =>
    intro summary issued
    cases hcb : answer geo f j with
    | none =>
      refine ⟨0, Nat.zero_le _, by simp, by simp [callbacks, hcb], by simp [callbacks, hcb],
        Or.inr ⟨by simp [callbacks, hcb], j, by simp, hcb⟩⟩
    | some o =>
      obtain ⟨s, u⟩ := o
      obtain ⟨m, hm, hall, hsum, hiss, hend⟩ :=
        ih (summary ++ [s]) (issued ++ [(j.2._id, u)])
      have hstep : callbacks geo f (j :: rest) summary issued
          = callbacks geo f rest (summary ++ [s]) (issued ++ [(j.2._id, u)]) := by
        simp [callbacks, hcb]
      rw [hstep]
      refine ⟨m + 1, by simpa using hm, ?_, ?_, ?_, ?_⟩
      · intro x hx
        simp only [List.take_succ_cons, List.mem_cons] at hx
        rcases hx with h1 | h1
        · subst h1; exact ⟨_, hcb⟩
        · exact hall x h1
      · rw [hsum]
        simp [List.take_succ_cons, List.filterMap_cons, hcb]
      · rw [hiss]
        simp [List.take_succ_cons, List.filterMap_cons, hcb]
      · rcases hend with ⟨h1, h2⟩ | ⟨h1, x, hx, hnone⟩
        · exact Or.inl ⟨h1, by simp [h2]⟩
        · exact Or.inr ⟨h1, x, by simpa using hx, hnone⟩

theorem filterMap_range_getElem (docs : List Doc) :
    (List.range docs.length).filterMap (fun n => docs[n]?) = docs := by
  induction docs using List.reverseRecOn with
  | nil => rfl
  | append_singleton l a ih =>
    rw [List.length_append, List.length_singleton, List.range_succ, List.filterMap_append]
    have h1 : (List.range l.length).filterMap (fun n => (l ++ [a])[n]?)
        = (List.range l.length).filterMap (fun n => l[n]?) := by
      apply List.filterMap_congr
      intro n hn
      have hlt : n < l.length := List.mem_range.mp hn
      exact List.getElem?_append_left hlt
    rw [h1, ih]
    simp

theorem jobs_snd (arrival : List Nat) (docs : List Doc) :
    (jobs arrival docs).map Prod.snd = arrival.filterMap (fun n => docs[n]?) := by
  unfold jobs
  rw [List.map_filterMap]
  apply List.filterMap_congr
  intro n _
  cases docs[n]? <;> rfl

theorem jobs_perm (sched : Schedule) (docs : List Doc) (h : sched.valid docs.length) :
    ((jobs sched.arrival docs).map Prod.snd).Perm docs := by
  rw [jobs_snd]
  have := List.Perm.filterMap (fun n => docs[n]?) h
  rwa [filterMap_range_getElem] at this

theorem jobs_index (arrival : List Nat) (docs : List Doc) (j : Nat × Doc)
    (h : j ∈ jobs arrival docs) : docs[j.1]? = some j.2 := by
  unfold jobs at h
  obtain ⟨n, _, hn⟩ := List.mem_filterMap.mp h
  cases hd : docs[n]? with
  | none => simp [hd] at hn
  | some d =>
    simp only [hd, Option.map_some', Option.some.injEq] at hn
    subst hn
    exact hd

theorem mem_jobs (sched : Schedule) (docs : List Doc) (h : sched.valid docs.length)
    (k : Nat) (d : Doc) (hk : docs[k]? = some d) : (k, d) ∈ jobs sched.arrival docs := by
  unfold jobs
  apply List.mem_filterMap.mpr
  refine ⟨k, ?_, by simp [hk]⟩
  have hlt : k < docs.length := by
    by_contra hge
    have : docs[k]? = none := List.getElem?_eq_none (by omega)
    rw [this] at hk; cases hk
  exact (List.Perm.mem_iff h).mpr (List.mem_range.mpr hlt)

theorem jobs_nodup (sched : Schedule) (docs : List Doc) (h : sched.valid docs.length)
    (hn : (docs.map (fun d => d._id)).Nodup) :
    ((jobs sched.arrival docs).map (fun j => j.2._id)).Nodup := by
  have hp := List.Perm.map (fun d : Doc => d._id) (jobs_perm sched docs h)
  rw [List.map_map] at hp
  exact (List.Perm.nodup_iff hp).mpr hn

/-! ## Lemmas on the iteration -/

theorem called_sublist (f : String) (docs : List Doc) : (called f docs).Sublist docs := by
  induction docs with
  | nil => exact List.Sublist.refl _
  | cons d rest ih =>
    unfold called
    by_cases h : address f d = ""
    · simp only [h, if_true]
      exact List.Sublist.cons₂ d (List.nil_sublist rest)
    · simp only [h, if_false]
      exact List.Sublist.cons₂ d ih

theorem called_eq (f : String) (docs : List Doc) (h : throwsAtOnce f docs = false) :
    called f docs = docs := by
  induction docs with
  | nil => rfl
  | cons d rest ih =>
    simp only [throwsAtOnce, List.any_cons, Bool.or_eq_false_iff, decide_eq_false_iff_not] at h
    unfold called
    simp only [h.1, if_false]
    rw [ih (by simpa [throwsAtOnce] using h.2)]

theorem throwsAtOnce_iff (f : String) (docs : List Doc) :
    throwsAtOnce f docs = true ↔ ∃ d ∈ docs, address f d = "" := by
  simp [throwsAtOnce]

theorem issued_ids (geo : Nat → String → Reply) (f : String) (done : List (Nat × Doc))
    (hall : ∀ j ∈ done, ∃ o, answer geo f j = some o) :
    (done.filterMap (fun j => (answer geo f j).map (fun o => (j.2._id, o.2)))).map Prod.fst
      = done.map (fun j => j.2._id) := by
  induction done with
  | nil => rfl
  | cons j rest ih =>
    obtain ⟨o, ho⟩ := hall j (List.mem_cons_self _ _)
    simp only [List.filterMap_cons, ho, Option.map_some', List.map_cons]
    rw [ih (fun x hx => hall x (List.mem_cons_of_mem _ hx))]

theorem issued_mem (geo : Nat → String → Reply) (f : String) (done : List (Nat × Doc))
    (id : String) (u : Fields)
    (h : (id, u) ∈ done.filterMap (fun j => (answer geo f j).map (fun o => (j.2._id, o.2)))) :
    ∃ j ∈ done, ∃ s, answer geo f j = some (s, u) ∧ j.2._id = id := by
  obtain ⟨j, hj, hjo⟩ := List.mem_filterMap.mp h
  cases ho : answer geo f j with
  | none => simp [ho] at hjo
  | some o =>
    simp only [ho, Option.map_some', Option.some.injEq, Prod.mk.injEq] at hjo
    exact ⟨j, hj, o.1, by rw [← hjo.2]; exact ho, hjo.1⟩

/-- The property of the iteration the claims rest on: the updates carried out
are asked for by callbacks that returned, at most one for a document; every
document of the store carries the update asked for under its `_id`, if any;
a run completes only when every callback has returned. -/
theorem eachDoc_spec (geo : Nat → String → Reply) (f : String) (sched : Schedule)
    (db : Store) (docs : List Doc) (h : uniqueIds db)
    (hn : (docs.map (fun d => d._id)).Nodup) (hs : sched.valid docs.length) :
    ∃ applied : List (String × Fields),
      (applied.map Prod.fst).Nodup ∧
      (∀ id u, (id, u) ∈ applied →
        ∃ k d s, docs[k]? = some d ∧ d._id = id ∧ answer geo f (k, d) = some (s, u)) ∧
      (eachDoc geo f sched docs (initial db)).state.db
        = db.map (fun x =>
            match applied.lookup x._id with
            | some u => x.set u
            | none => x) ∧
      (eachDoc geo f sched docs (initial db)).state.updated = applied.map Prod.fst ∧
      (eachDoc geo f sched docs (initial db)).state.geocoded
        = (called f docs).map (fun d => (d._id, address f d)) ∧
      ((∃ d ∈ docs, address f d = "") → applied = []) ∧
      ((eachDoc geo f sched docs (initial db)
            = .completed (eachDoc geo f sched docs (initial db)).state ∧
          called f docs = docs ∧
          (∀ d ∈ docs, address f d ≠ "") ∧
          (∀ k d, docs[k]? = some d →
            ∃ s u, answer geo f (k, d) = some (s, u) ∧ (d._id, u) ∈ applied) ∧
          (∀ j ∈ jobs sched.arrival docs, ∃ o, answer geo f j = some o) ∧
          (eachDoc geo f sched docs (initial db)).state.summary
            = (jobs sched.arrival docs).filterMap (fun j => (answer geo f j).map Prod.fst)) ∨
       (eachDoc geo f sched docs (initial db)
            = .aborted (eachDoc geo f sched docs (initial db)).state)) := by
  by_cases ht : throwsAtOnce f docs = true
  · have hR : eachDoc geo f sched docs (initial db) = .aborted (dispatch f docs (initial db)) := by
      simp [eachDoc, ht]
    rw [hR]
    refine ⟨[], List.nodup_nil, ?_, ?_, rfl, ?_, fun _ => rfl, Or.inr rfl⟩
    · intro id u hmem; cases hmem
    · simp [Run.state, dispatch, initial]
    · simp [Run.state, dispatch, initial]
  · have ht2 : throwsAtOnce f docs = false := by simpa using ht
    obtain ⟨m, hm, hall, hsum, hiss, hend⟩ :=
      callbacks_spec geo f (jobs sched.arrival docs) [] []
    have hjn := jobs_nodup sched docs hs hn
    have hempty : ∀ {α : Type} (l : List α), (∃ d ∈ docs, address f d = "") → l = [] := by
      intro α l hex
      have := (throwsAtOnce_iff f docs).mpr hex
      rw [ht2] at this; cases this
    have hsub : ((jobs sched.arrival docs).take m).Sublist (jobs sched.arrival docs) :=
      List.take_sublist _ _
    have hissn : ((callbacks geo f (jobs sched.arrival docs) [] []).issued.map Prod.fst).Nodup := by
      rw [hiss, List.nil_append, issued_ids geo f _ hall]
      exact List.Nodup.sublist (List.Sublist.map _ hsub) hjn
    have hissm : ∀ id u, (id, u) ∈ (callbacks geo f (jobs sched.arrival docs) [] []).issued →
        ∃ k d s, docs[k]? = some d ∧ d._id = id ∧ answer geo f (k, d) = some (s, u) := by
      intro id u hmem
      rw [hiss, List.nil_append] at hmem
      obtain ⟨j, hj, s, hjs, hjid⟩ := issued_mem geo f _ id u hmem
      exact ⟨j.1, j.2, s, jobs_index _ _ j (hsub.subset hj), hjid, hjs⟩
    rcases hend with ⟨hT, hmlen⟩ | ⟨hT, _⟩
    · have hR : eachDoc geo f sched docs (initial db)
          = .completed (settle (callbacks geo f (jobs sched.arrival docs) [] []).issued
              (callbacks geo f (jobs sched.arrival docs) [] []).summary
              (dispatch f docs (initial db))) := by
        simp [eachDoc, ht2, hT, initial]
      rw [hR]
      have htake : (jobs sched.arrival docs).take m = jobs sched.arrival docs := by
        rw [hmlen, List.take_length]
      rw [htake] at hall hsum hiss
      refine ⟨_, hissn, hissm, ?_, ?_, ?_, hempty _, Or.inl ⟨rfl, called_eq f docs ht2, ?_, ?_, hall, ?_⟩⟩
      · simp only [Run.state, settle, dispatch, initial]
        exact applyUpdates_eq_map _ db h hissn
      · simp [Run.state, settle, dispatch, initial]
      · simp [Run.state, settle, dispatch, initial]
      · intro d hd hempty
        have := (throwsAtOnce_iff f docs).mpr ⟨d, hd, hempty⟩
        rw [ht2] at this; cases this
      · intro k d hk
        have hj := mem_jobs sched docs hs k d hk
        obtain ⟨o, ho⟩ := hall (k, d) hj
        refine ⟨o.1, o.2, ho, ?_⟩
        rw [hiss, List.nil_append]
        apply List.mem_filterMap.mpr
        exact ⟨(k, d), hj, by simp [ho]⟩
      · simp only [Run.state, settle]
        rw [hsum, List.nil_append]
    · have hR : eachDoc geo f sched docs (initial db)
          = .aborted (settle
              ((callbacks geo f (jobs sched.arrival docs) [] []).issued.take
                ((callbacks geo f (jobs sched.arrival docs) [] []).issued.length - sched.lost))
              (callbacks geo f (jobs sched.arrival docs) [] []).summary
              (dispatch f docs (initial db))) := by
        simp [eachDoc, ht2, hT, initial]
      rw [hR]
      have hpre : ((callbacks geo f (jobs sched.arrival docs) [] []).issued.take
          ((callbacks geo f (jobs sched.arrival docs) [] []).issued.length - sched.lost)).Sublist
          (callbacks geo f (jobs sched.arrival docs) [] []).issued := List.take_sublist _ _
      have hpn := List.Nodup.sublist (List.Sublist.map Prod.fst hpre) hissn
      refine ⟨_, hpn, fun id u hmem => hissm id u (hpre.subset hmem), ?_, ?_, ?_,
        hempty _, Or.inr rfl⟩
      · simp only [Run.state, settle, dispatch, initial]
        exact applyUpdates_eq_map _ db h hpn
      · simp [Run.state, settle, dispatch, initial]
      · simp [Run.state, settle, dispatch, initial]

/-! ## Lemmas on the query -/

theorem find_map_id (g : Doc → Doc) (hg : ∀ x, (g x)._id = x._id) (id : String) (db : Store) :
    (db.map g).find? (fun d => d._id = id) = (db.find? (fun d => d._id = id)).map g := by
  induction db with
  | nil => rfl
  | cons d rest ih =>
    by_cases hd : d._id = id
    · simp [List.find?, hg, hd]
    · simp [List.find?, hg, hd, ih]

theorem mem_unique (db : Store) (h : uniqueIds db) (x y : Doc) (hx : x ∈ db) (hy : y ∈ db)
    (hxy : x._id = y._id) : x = y :=
  List.inj_on_of_nodup_map h hx hy hxy

theorem find_of_mem (db : Store) (h : uniqueIds db) (x : Doc) (hx : x ∈ db) :
    db.find? (fun d => d._id = x._id) = some x := by
  induction db with
  | nil => cases hx
  | cons d rest ih =>
    have hn : d._id ∉ rest.map (fun d => d._id) ∧ (rest.map (fun d => d._id)).Nodup := by
      simpa [uniqueIds] using h
    rcases List.mem_cons.mp hx with h1 | h1
    · subst h1; simp [List.find?]
    · have hne : d._id ≠ x._id := by
        intro he
        apply hn.1
        rw [he]
        exact List.mem_map_of_mem _ h1
      simp [List.find?, hne, ih hn.2 h1]

theorem findUnprocessed_sub (db : Store) (x : Doc) (hx : x ∈ findUnprocessed db) :
    x ∈ db ∧ hasStatus x = false := by
  simpa [findUnprocessed] using hx

theorem findUnprocessed_nodup (db : Store) (h : uniqueIds db) :
    ((findUnprocessed db).map (fun d => d._id)).Nodup :=
  List.Nodup.sublist (List.Sublist.map _ (List.filter_sublist db)) h

theorem not_unprocessed_id (db : Store) (h : uniqueIds db) (x : Doc) (hx : x ∈ db)
    (hs : hasStatus x = true) : x._id ∉ (findUnprocessed db).map (fun d => d._id) := by
  intro hmem
  obtain ⟨y, hy, hyx⟩ := List.mem_map.mp hmem
  obtain ⟨hy1, hy2⟩ := findUnprocessed_sub db y hy
  have := mem_unique db h y x hy1 hx hyx
  subst this
  rw [hs] at hy2
  cases hy2

theorem getElem_map_state (g : Doc → Doc) (db : Store) (i : Nat) (x : Doc)
    (hx : db[i]? = some x) : (db.map g)[i]? = some (g x) := by
  rw [List.getElem?_map, hx]; rfl

theorem hasStatus_of_lookup (x : Doc) (v : JsVal)
    (h : x.fields.lookup "GeocodeStatus" = some v) (hv : v ≠ .undefined) :
    hasStatus x = true := by
  unfold hasStatus
  rw [h]
  cases v <;> simp at hv ⊢

/-- How a callback that returns comes by its status. -/
theorem answer_cases (geo : Nat → String → Reply) (f : String) (k : Nat) (d : Doc)
    (v : JsVal) (u : Fields) (h : answer geo f (k, d) = some (v, u)) :
    ∃ r, geo k (address f d) = .data r ∧
      ((r.status = some "ZERO_RESULTS" ∧ v = .str "ZERO_RESULTS") ∨
       (r.status ≠ some "ZERO_RESULTS" ∧ ∃ res rest g,
          r.results = some (res :: rest) ∧ res.geometry = some g ∧ v = g.location_type)) := by
  unfold answer at h
  simp only at h
  cases hr : geo k (address f d) with
  | err => rw [hr] at h; simp [geocodeCallback] at h
  | data r =>
    rw [hr] at h
    refine ⟨r, rfl, ?_⟩
    by_cases hz : r.status = some "ZERO_RESULTS"
    · rw [geocodeCallback_zero _ r hz] at h
      simp only [Option.some.injEq, Prod.mk.injEq] at h
      exact Or.inl ⟨hz, h.1.symm⟩
    · right
      refine ⟨hz, ?_⟩
      cases hres : r.results with
      | none => simp [geocodeCallback, hz, hres] at h
      | some rs =>
        cases rs with
        | nil => simp [geocodeCallback, hz, hres] at h
        | cons res rest =>
          cases hg : res.geometry with
          | none => simp [geocodeCallback, hz, hres, hg] at h
          | some g =>
            cases hc : g.location with
            | none => simp [geocodeCallback, hz, hres, hg, hc] at h
            | some c =>
              rw [geocodeCallback_resolved _ r res rest g c hz hres hg hc] at h
              simp only [Option.some.injEq, Prod.mk.injEq] at h
              exact ⟨res, rest, g, rfl, hg, h.1.symm⟩

/-! ## Lemmas on the summary -/

theorem lookup_bump (key s : String) (t : List (String × Nat)) :
    (bump key t).lookup s = if s = key then some ((t.lookup s).getD 0 + 1) else t.lookup s := by
  induction t with
  | nil => by_cases h : s = key <;> simp [bump, lookup_cons_eq, h]
  | cons kv rest ih =>
    obtain ⟨a, n⟩ := kv
    by_cases ha : a = key
    · subst ha
      by_cases h : s = a <;> simp [bump, lookup_cons_eq, h]
    · by_cases h : s = key
      · subst h
        have hsa : s ≠ a := fun h' => ha h'.symm
        simp [bump, lookup_cons_eq, ha, hsa, ih]
      · simp [bump, lookup_cons_eq, ha, ih, h]

theorem lookup_foldl_countStep (s : String) (hs : s ≠ "__proto__") :
    ∀ (l : List JsVal) (acc : List (String × Nat)),
      (∀ v, acc.lookup s = some v → 0 < v) →
      (l.foldl countStep acc).lookup s
        = if (acc.lookup s).getD 0 + (l.map JsVal.toStr).count s = 0 then none
          else some ((acc.lookup s).getD 0 + (l.map JsVal.toStr).count s) := by
  intro l
  induction l with
  | nil =>
    intro acc hpos
    simp only [List.foldl, List.map_nil, List.count_nil, Nat.add_zero]
    cases hl : acc.lookup s with
    | none => simp
    | some v =>
      have := hpos v hl
      have hv : v ≠ 0 := by omega
      simp [hv]
  | cons a rest ih =>
    intro acc hpos
    by_cases hp : a.toStr = "__proto__"
    · have hstep : countStep acc a = acc := by simp [countStep, hp]
      have hne : a.toStr ≠ s := by rw [hp]; exact fun h => hs h.symm
      have hb : (a.toStr == s) = false := beq_false_of_ne hne
      rw [List.foldl, hstep, ih acc hpos]
      simp only [List.map_cons, List.count_cons, hb, Bool.false_eq_true, if_false, Nat.add_zero]
    · have hstep : countStep acc a = bump a.toStr acc := by simp [countStep, hp]
      have hpos2 : ∀ v, (bump a.toStr acc).lookup s = some v → 0 < v := by
        intro v hv
        rw [lookup_bump] at hv
        by_cases h : s = a.toStr
        · simp only [h, if_true, Option.some.injEq] at hv
          omega
        · simp only [h, if_false] at hv
          exact hpos v hv
      rw [List.foldl, hstep, ih _ hpos2, lookup_bump]
      by_cases h : s = a.toStr
      · have e1 : (List.map JsVal.toStr (a :: rest)).count s
            = (List.map JsVal.toStr rest).count s + 1 := by
          rw [List.map_cons, h, List.count_cons_self]
        simp only [h, if_true, Option.getD_some] at e1 ⊢
        rw [e1]
        have e : (acc.lookup a.toStr).getD 0 + 1 + List.count a.toStr (List.map JsVal.toStr rest)
            = (acc.lookup a.toStr).getD 0 + (List.count a.toStr (List.map JsVal.toStr rest) + 1) := by
          omega
        rw [e]
      · have hne : a.toStr ≠ s := fun h' => h h'.symm
        have hb : (a.toStr == s) = false := beq_false_of_ne hne
        simp only [h, if_false, List.map_cons, List.count_cons, hb, Bool.false_eq_true,
          Nat.add_zero]

theorem lookup_countBy (summary : List JsVal) (s : String) (hs : s ≠ "__proto__") :
    (countBy summary).lookup s
      = if (summary.map JsVal.toStr).count s = 0 then none
        else some ((summary.map JsVal.toStr).count s) := by
  have := lookup_foldl_countStep s hs summary [] (by intro v hv; simp at hv)
  simpa [countBy] using this

theorem keys_bump (key : String) (t : List (String × Nat)) :
    (bump key t).map Prod.fst
      = if key ∈ t.map Prod.fst then t.map Prod.fst else t.map Prod.fst ++ [key] := by
  induction t with
  | nil => simp [bump]
  | cons kv rest ih =>
    obtain ⟨a, n⟩ := kv
    by_cases ha : a = key
    · simp [bump, ha]
    · have hne : key ≠ a := fun h' => ha h'.symm
      by_cases hm : key ∈ rest.map Prod.fst
      · simp only [bump, ha, if_false, List.map_cons, ih, hm, if_true, List.mem_cons, or_true]
      · simp only [bump, ha, if_false, List.map_cons, ih, hm, List.mem_cons, hne, or_self,
          List.cons_append]

theorem keys_foldl_countStep :
    ∀ (l : List JsVal) (acc : List (String × Nat)),
      (acc.map Prod.fst).Nodup → "__proto__" ∉ acc.map Prod.fst →
      ((l.foldl countStep acc).map Prod.fst).Nodup ∧
      "__proto__" ∉ (l.foldl countStep acc).map Prod.fst := by
  intro l
  induction l with
  | nil => intro acc h hp; exact ⟨h, hp⟩
  | cons a rest ih =>
    intro acc h hp
    by_cases hpa : a.toStr = "__proto__"
    · have hstep : countStep acc a = acc := by simp [countStep, hpa]
      rw [List.foldl, hstep]
      exact ih acc h hp
    · have hstep : countStep acc a = bump a.toStr acc := by simp [countStep, hpa]
      rw [List.foldl, hstep]
      apply ih
      · rw [keys_bump]
        by_cases hm : a.toStr ∈ acc.map Prod.fst
        · simp only [hm, if_true]; exact h
        · simp only [hm, if_false]
          exact List.Nodup.append h (List.nodup_singleton _) (by simpa using hm)
      · rw [keys_bump]
        by_cases hm : a.toStr ∈ acc.map Prod.fst
        · simp only [hm, if_true]; exact hp
        · simp only [hm, if_false, List.mem_append, List.mem_singleton, not_or]
          exact ⟨hp, fun he => hpa he.symm⟩

theorem nodup_keys_countBy (summary : List JsVal) :
    ((countBy summary).map Prod.fst).Nodup :=
  (keys_foldl_countStep summary [] List.nodup_nil (by simp)).1

theorem no_proto_countBy (summary : List JsVal) :
    (countBy summary).lookup "__proto__" = none := by
  have h := (keys_foldl_countStep summary [] List.nodup_nil (by simp)).2
  cases hl : (countBy summary).lookup "__proto__" with
  | none => rfl
  | some n =>
    exfalso
    apply h
    have : ("__proto__", n) ∈ countBy summary := by
      have hm : ∀ (t : List (String × Nat)), t.lookup "__proto__" = some n →
          ("__proto__", n) ∈ t := by
        intro t
        induction t with
        | nil => intro h0; simp at h0
        | cons a rest ih =>
          obtain ⟨k, w⟩ := a
          intro h0
          rw [lookup_cons_eq] at h0
          by_cases hk : "__proto__" = k
          · simp only [hk, if_true, Option.some.injEq] at h0
            subst h0; subst hk
            exact List.mem_cons_self _ _
          · simp only [hk, if_false] at h0
            exact List.mem_cons_of_mem _ (ih h0)
      exact hm _ hl
    exact List.mem_map.mpr ⟨("__proto__", n), this, rfl⟩

theorem sum_bump (key : String) (t : List (String × Nat)) :
    ((bump key t).map Prod.snd).sum = (t.map Prod.snd).sum + 1 := by
  induction t with
  | nil => simp [bump]
  | cons kv rest ih =>
    obtain ⟨a, n⟩ := kv
    by_cases ha : a = key
    · simp [bump, ha]; omega
    · simp [bump, ha, ih]; omega

theorem sum_foldl_countStep :
    ∀ (l : List JsVal) (acc : List (String × Nat)),
      (∀ v ∈ l, v.toStr ≠ "__proto__") →
      ((l.foldl countStep acc).map Prod.snd).sum = (acc.map Prod.snd).sum + l.length := by
  intro l
  induction l with
  | nil => intro acc _; simp
  | cons a rest ih =>
    intro acc hl
    have hpa : a.toStr ≠ "__proto__" := hl a (List.mem_cons_self _ _)
    have hstep : countStep acc a = bump a.toStr acc := by simp [countStep, hpa]
    rw [List.foldl, hstep, ih _ (fun v hv => hl v (List.mem_cons_of_mem _ hv)), sum_bump]
    simp; omega

theorem sum_countBy (summary : List JsVal) (h : ∀ v ∈ summary, v.toStr ≠ "__proto__") :
    ((countBy summary).map Prod.snd).sum = summary.length := by
  have := sum_foldl_countStep summary [] h
  simpa [countBy] using this

theorem countP_eq_count {α : Type} (l : List α) (p : α → Option String)
    (keys : List String) (s : String) (h : l.map p = keys.map some) :
    l.countP (fun d => decide (p d = some s)) = keys.count s := by
  induction l generalizing keys with
  | nil =>
    cases keys with
    | nil => rfl
    | cons a rest => simp at h
  | cons d rest ih =>
    cases keys with
    | nil => simp at h
    | cons a srest =>
      simp only [List.map_cons, List.cons.injEq] at h
      obtain ⟨h1, h2⟩ := h
      rw [List.countP_cons, ih srest h2, List.count_cons, h1]
      by_cases ha : a = s
      · simp [ha]
      · simp [ha]

/-! ## Lemmas on the pipeline -/

theorem pipeline_of_none (argv : Argv) (geo : Nat → String → Reply) (sched : Schedule)
    (db : Store) (h : findUnprocessed db = []) :
    pipeline argv geo sched db = .crashed (initial db) := by
  unfold pipeline
  rw [h]

theorem pipeline_of_some (argv : Argv) (geo : Nat → String → Reply) (sched : Schedule)
    (db : Store) (h : findUnprocessed db ≠ []) :
    pipeline argv geo sched db
      = match eachDoc geo argv.fields sched (findUnprocessed db) (initial db) with
        | .completed st =>
          .finished st (countBy st.summary) (exportRecords argv.file argv.type st.db)
        | .aborted st => .crashed st := by
  unfold pipeline
  cases hd : findUnprocessed db with
  | nil => exact absurd hd h
  | cons d ds => rfl

/-- The property `eachDoc_spec` for the pipeline. -/
theorem pipeline_spec (argv : Argv) (geo : Nat → String → Reply) (sched : Schedule)
    (db : Store) (h : uniqueIds db) (hs : sched.valid (findUnprocessed db).length) :
    ∃ applied : List (String × Fields),
      (applied.map Prod.fst).Nodup ∧
      (∀ id u, (id, u) ∈ applied →
        ∃ k d s, (findUnprocessed db)[k]? = some d ∧ d._id = id ∧
          answer geo argv.fields (k, d) = some (s, u)) ∧
      (pipeline argv geo sched db).state.db
        = db.map (fun x =>
            match applied.lookup x._id with
            | some u => x.set u
            | none => x) ∧
      (pipeline argv geo sched db).state.updated = applied.map Prod.fst ∧
      (pipeline argv geo sched db).state.geocoded
        = (called argv.fields (findUnprocessed db)).map
            (fun d => (d._id, address argv.fields d)) ∧
      ((∃ d ∈ findUnprocessed db, address argv.fields d = "") → applied = []) ∧
      (∀ (st : RunState) (printed : List (String × Nat)) (written : Export),
        pipeline argv geo sched db = .finished st printed written →
        printed = countBy st.summary ∧
        written = exportRecords argv.file argv.type st.db ∧
        called argv.fields (findUnprocessed db) = findUnprocessed db ∧
        (∀ d ∈ findUnprocessed db, address argv.fields d ≠ "") ∧
        (∀ k d, (findUnprocessed db)[k]? = some d →
          ∃ s u, answer geo argv.fields (k, d) = some (s, u) ∧ (d._id, u) ∈ applied) ∧
        (∀ j ∈ jobs sched.arrival (findUnprocessed db), ∃ o, answer geo argv.fields j = some o) ∧
        st.summary = (jobs sched.arrival (findUnprocessed db)).filterMap
          (fun j => (answer geo argv.fields j).map Prod.fst)) := by
  by_cases hd : findUnprocessed db = []
  · rw [pipeline_of_none argv geo sched db hd]
    refine ⟨[], List.nodup_nil, ?_, ?_, rfl, ?_, fun _ => rfl, ?_⟩
    · intro id u hmem; cases hmem
    · simp [Outcome.state, initial]
    · simp [Outcome.state, initial, hd, called]
    · intro st printed written hrun; cases hrun
  · obtain ⟨applied, h1, h2, h3, h4, h5, he, h6⟩ :=
      eachDoc_spec geo argv.fields sched db (findUnprocessed db) h
        (findUnprocessed_nodup db h) hs
    rw [pipeline_of_some argv geo sched db hd]
    rcases h6 with ⟨hc, h7, h8, h9, h10, h11⟩ | ha
    · rw [hc] at h3 h4 h5 h11 ⊢
      simp only [Run.state] at h3 h4 h5 h11
      refine ⟨applied, h1, h2, h3, h4, h5, he, ?_⟩
      intro st printed written hrun
      simp only at hrun
      injection hrun with e1 e2 e3
      subst e1
      exact ⟨e2.symm, e3.symm, h7, h8, h9, h10, h11⟩
    · rw [ha] at h3 h4 h5 ⊢
      simp only [Run.state] at h3 h4 h5
      refine ⟨applied, h1, h2, h3, h4, h5, he, ?_⟩
      intro st printed written hrun
      cases hrun

theorem index_unique (docs : List Doc) :
    ∀ (k n : Nat) (d : Doc), (docs.map (fun d => d._id)).Nodup →
      docs[k]? = some d → docs[n]? = some d → k = n := by
  induction docs with
  | nil => intro k n d _ hk; simp at hk
  | cons a rest ih =>
    intro k n d hnd hk hn
    have h2 : a._id ∉ rest.map (fun d => d._id) ∧ (rest.map (fun d => d._id)).Nodup := by
      simpa using hnd
    cases k with
    | zero =>
      cases n with
      | zero => rfl
      | succ n =>
        simp only [List.getElem?_cons_zero, Option.some.injEq] at hk
        simp only [List.getElem?_cons_succ] at hn
        exfalso
        apply h2.1
        rw [hk]
        exact List.mem_map.mpr ⟨d, List.mem_iff_getElem?.mpr ⟨n, hn⟩, rfl⟩
    | succ k =>
      cases n with
      | zero =>
        simp only [List.getElem?_cons_zero, Option.some.injEq] at hn
        simp only [List.getElem?_cons_succ] at hk
        exfalso
        apply h2.1
        rw [hn]
        exact List.mem_map.mpr ⟨d, List.mem_iff_getElem?.mpr ⟨k, hk⟩, rfl⟩
      | succ n =>
        simp only [List.getElem?_cons_succ] at hk hn
        rw [ih k n d h2.2 hk hn]

/-! ## Lemmas on the sample data -/

theorem parisGeocoder_location_type (k : Nat) (a : String) (r : Response) (res : GeoResult)
    (rest : List GeoResult) (g : Geometry) (hr : parisGeocoder k a = .data r)
    (hz : r.status ≠ some "ZERO_RESULTS") (hres : r.results = some (res :: rest))
    (hg : res.geometry = some g) : g.location_type = .str "APPROXIMATE" := by
  unfold parisGeocoder at hr
  split at hr
  · injection hr with hr
    subst hr
    simp only [parisResponse, Option.some.injEq, List.cons.injEq] at hres
    obtain ⟨h1, _⟩ := hres
    subst h1
    simp only [Option.some.injEq] at hg
    subst hg
    rfl
  · injection hr with hr
    subst hr
    exact absurd rfl hz

/-! ## Lemmas on the address builder -/

theorem get_seg (doc : Doc) (name : String) (h : doc.lacks name → inherited name = none) :
    (doc.get name).seg = specSegment doc name := by
  unfold Doc.get specSegment
  by_cases hid : name = "_id"
  · simp [hid, JsVal.seg, JsVal.toStr]
  · simp only [hid, if_false]
    cases hl : doc.fields.lookup name with
    | none =>
      rw [h ⟨hid, hl⟩]
      rfl
    | some v => exact seg_eq_specText v

theorem foldl_join_go (sep : String) (f : JsVal → String) (l : List JsVal) (acc : String) :
    l.foldl (fun r x => r ++ sep ++ f x) acc = String.intercalate.go acc sep (l.map f) := by
  induction l generalizing acc with
  | nil => rfl
  | cons x xs ih => simp [List.foldl, String.intercalate.go, ih]

theorem jsJoin_eq_intercalate (sep : String) (l : List JsVal) :
    jsJoin sep l = String.intercalate sep (l.map JsVal.seg) := by
  cases l with
  | nil => rfl
  | cons v rest => simp [jsJoin, String.intercalate, foldl_join_go]

theorem specSegment_of_lacks (doc : Doc) (name : String) (h : doc.lacks name) :
    specSegment doc name = "" := by
  obtain ⟨h1, h2⟩ := h
  simp [specSegment, h1, h2]

/-! ## The address builder: the claim -/

/-- C3, as the code has it: for every record and every ordered list of field
names none of which is both lacked by the record and the name of a property
every object inherits (`constructor`, `toString`, `__proto__` and the like),
the address built by the script is the texts of the values of those fields,
in the given order, joined with `", "`, and a field the record lacks
contributes an empty segment (the builder is total, it raises no error). -/
theorem address_joins_fields (doc : Doc) (names : List String)
    (h : ∀ n ∈ names, doc.lacks n → inherited n = none) :
    buildAddress doc names = specAddress doc names ∧
    (∀ n ∈ names, doc.lacks n → (doc.get n).seg = "" ∧ specSegment doc n = "") := by
  refine ⟨?_, ?_⟩
  · unfold buildAddress specAddress
    rw [jsJoin_eq_intercalate, List.map_map]
    congr 1
    apply List.map_congr_left
    intro n hn
    exact get_seg doc n (h n hn)
  · intro n hn hl
    rw [get_seg doc n (h n hn)]
    exact ⟨specSegment_of_lacks doc n hl, specSegment_of_lacks doc n hl⟩

/-- Witness of C3: the two examples of the claim, `{city:"Springfield",
state:"IL"}` and `{city:"Springfield"}` with the fields `city,state`, and a
record whose values are a number, a boolean, `null`, a list and an object. -/
theorem address_joins_fields_witness :
    (∀ n ∈ ["city", "state"], springfield.lacks n → inherited n = none) ∧
    (buildAddress springfield ["city", "state"] = specAddress springfield ["city", "state"] ∧
      (∀ n ∈ ["city", "state"], springfield.lacks n →
        (springfield.get n).seg = "" ∧ specSegment springfield n = "")) ∧
    jsSplit "city,state" ',' = ["city", "state"] ∧
    address "city,state" springfieldIL = "Springfield, IL" ∧
    specAddress springfieldIL ["city", "state"] = "Springfield, IL" ∧
    address "city,state" springfield = "Springfield, " ∧
    specAddress springfield ["city", "state"] = "Springfield, " ∧
    address "zip,open,note,tags,meta" mixedRecord = "62704, true, , a,,b,c, [object Object]" ∧
    specAddress mixedRecord ["zip", "open", "note", "tags", "meta"]
      = "62704, true, , a,,b,c, [object Object]" :=
  have hn : ∀ n ∈ ["city", "state"], springfield.lacks n → inherited n = none := by
    intro n hn _
    simp only [List.mem_cons, List.mem_singleton, List.not_mem_nil, or_false] at hn
    rcases hn with h1 | h1 <;> subst h1 <;> rfl
  ⟨hn, address_joins_fields springfield ["city", "state"] hn, by decide, by decide, by decide,
    by decide, by decide, by decide, by decide⟩

/-- C3, the counterexample: the record `{city:"Springfield"}` lacks the field
`constructor`, and with the fields `city,constructor` its address is
`Springfield, function Object() { [native code] }`: the segment of the
lacked field is the text of the function every object inherits under that
name, not the empty string. -/
theorem inherited_property_fills_segment :
    springfield.lacks "constructor" ∧
    springfield.get "constructor" = .fn "Object" ∧
    (springfield.get "constructor").seg ≠ "" ∧
    address "city,constructor" springfield
      = "Springfield, function Object() \x7b [native code] \x7d" ∧
    specAddress springfield ["city", "constructor"] = "Springfield, " ∧
    address "city,constructor" springfield ≠ specAddress springfield ["city", "constructor"] :=
  ⟨⟨by decide, rfl⟩, rfl, by decide, by decide, by decide, by decide⟩

theorem firstLongName_first (category : String) (v : Component) (post : List Component)
    (pre : List Component) (hpre : ∀ x ∈ pre, category ∉ x.types) (hv : category ∈ v.types) :
    firstLongName category (some (pre ++ v :: post)) = v.long_name := by
  have h1 : pre.filter (fun v => v.types.contains category) = [] := by
    rw [List.filter_eq_nil_iff]
    intro x hx
    simpa using hpre x hx
  have h2 : (v :: post).filter (fun v => v.types.contains category)
      = v :: post.filter (fun v => v.types.contains category) :=
    List.filter_cons_of_pos (by simpa using hv)
  unfold firstLongName
  rw [Option.getD_some, List.filter_append, h1, h2]
  rfl

theorem exists_first (category : String) :
    ∀ comps : List Component, (∃ x ∈ comps, category ∈ x.types) →
      ∃ pre v post, comps = pre ++ v :: post ∧ (∀ x ∈ pre, category ∉ x.types) ∧
        category ∈ v.types := by
  intro comps
  induction comps with
  | nil => intro h; simp at h
  | cons c cs ih =>
    intro h
    by_cases hc : category ∈ c.types
    · exact ⟨[], c, cs, rfl, by simp, hc⟩
    · obtain ⟨x, hx, hxc⟩ := h
      have hx2 : x ∈ cs := by
        rcases List.mem_cons.mp hx with h1 | h1
        · subst h1; exact absurd hxc hc
        · exact h1
      obtain ⟨pre, v, post, he, hpre, hv⟩ := ih ⟨x, hx2, hxc⟩
      refine ⟨c :: pre, v, post, by simp [he], ?_, hv⟩
      intro y hy
      rcases List.mem_cons.mp hy with h1 | h1
      · subst h1; exact hc
      · exact hpre y h1

/-! ## The response interpreter: the claims -/

/-- C4: for every response whose top-level status is `"ZERO_RESULTS"` the
callback does not throw and does not depend on `results` (absent, empty or
present); the `updates` it persists have `GeocodeStatus` `"ZERO_RESULTS"`, no
`GeocodeLat` and no `GeocodeLng`, and `GeocodeLocality`,
`GeocodeAdminAreaLevel1` and `GeocodeCountry` equal to the empty string; the
record updated with them carries these four values and keeps what it had,
if anything, under `GeocodeLat` and `GeocodeLng`. -/
theorem zero_results_outcome (address : String) (d : Response)
    (h : d.status = some "ZERO_RESULTS") :
    ∃ updates : Fields,
      geocodeCallback address (.data d) = some (.str "ZERO_RESULTS", updates) ∧
      (∀ results : Option (List GeoResult),
        geocodeCallback address (.data { d with results := results })
          = some (.str "ZERO_RESULTS", updates)) ∧
      updates.lookup "GeocodeStatus" = some (.str "ZERO_RESULTS") ∧
      updates.lookup "GeocodeLat" = none ∧
      updates.lookup "GeocodeLng" = none ∧
      updates.lookup "GeocodeLocality" = some (.str "") ∧
      updates.lookup "GeocodeAdminAreaLevel1" = some (.str "") ∧
      updates.lookup "GeocodeCountry" = some (.str "") ∧
      (∀ doc : Doc,
        (doc.set updates).fields.lookup "GeocodeStatus" = some (.str "ZERO_RESULTS") ∧
        (doc.set updates).fields.lookup "GeocodeLat" = doc.fields.lookup "GeocodeLat" ∧
        (doc.set updates).fields.lookup "GeocodeLng" = doc.fields.lookup "GeocodeLng" ∧
        (doc.set updates).fields.lookup "GeocodeLocality" = some (.str "") ∧
        (doc.set updates).fields.lookup "GeocodeAdminAreaLevel1" = some (.str "") ∧
        (doc.set updates).fields.lookup "GeocodeCountry" = some (.str "")) := by
  refine ⟨_, geocodeCallback_zero address d h, ?_, rfl, rfl, rfl, rfl, rfl, rfl, ?_⟩
  · intro results
    exact geocodeCallback_zero address { d with results := results } h
  · intro doc
    simp only [Doc.set, lookup_applySet]
    refine ⟨rfl, ?_, ?_, rfl, rfl, rfl⟩
    · show (none : Option JsVal).or _ = _
      simp
    · show (none : Option JsVal).or _ = _
      simp

/-- Witness of C4, on the response of the geocoder for an unknown address. -/
theorem zero_results_outcome_witness :
    zeroResponse.status = some "ZERO_RESULTS" ∧
    ∃ updates : Fields,
      geocodeCallback "NoSuchPlace12345" (.data zeroResponse) = some (.str "ZERO_RESULTS", updates) ∧
      (∀ results : Option (List GeoResult),
        geocodeCallback "NoSuchPlace12345" (.data { zeroResponse with results := results })
          = some (.str "ZERO_RESULTS", updates)) ∧
      updates.lookup "GeocodeStatus" = some (.str "ZERO_RESULTS") ∧
      updates.lookup "GeocodeLat" = none ∧
      updates.lookup "GeocodeLng" = none ∧
      updates.lookup "GeocodeLocality" = some (.str "") ∧
      updates.lookup "GeocodeAdminAreaLevel1" = some (.str "") ∧
      updates.lookup "GeocodeCountry" = some (.str "") ∧
      (∀ doc : Doc,
        (doc.set updates).fields.lookup "GeocodeStatus" = some (.str "ZERO_RESULTS") ∧
        (doc.set updates).fields.lookup "GeocodeLat" = doc.fields.lookup "GeocodeLat" ∧
        (doc.set updates).fields.lookup "GeocodeLng" = doc.fields.lookup "GeocodeLng" ∧
        (doc.set updates).fields.lookup "GeocodeLocality" = some (.str "") ∧
        (doc.set updates).fields.lookup "GeocodeAdminAreaLevel1" = some (.str "") ∧
        (doc.set updates).fields.lookup "GeocodeCountry" = some (.str "")) :=
  ⟨rfl, zero_results_outcome "NoSuchPlace12345" zeroResponse rfl⟩

/-- C5, evaluated: on a resolved response none of whose components is a
locality or an administrative area of level 1 the callback assigns
`undefined`, not the empty string, to `GeocodeLocality` and to
`GeocodeAdminAreaLevel1`, although the variables were initialised to `''` on
lines 125 and 126. -/
theorem unmatched_category_is_undefined :
    franceResponse.status ≠ some "ZERO_RESULTS" ∧
    (∀ c ∈ franceComponents, "locality" ∉ c.types) ∧
    (∀ c ∈ franceComponents, "administrative_area_level_1" ∉ c.types) ∧
    ∃ updates : Fields,
      geocodeCallback "France" (.data franceResponse) = some (.str "APPROXIMATE", updates) ∧
      updates.lookup "GeocodeLocality" = some .undefined ∧
      updates.lookup "GeocodeLocality" ≠ some (.str "") ∧
      updates.lookup "GeocodeAdminAreaLevel1" = some .undefined ∧
      updates.lookup "GeocodeAdminAreaLevel1" ≠ some (.str "") ∧
      updates.lookup "GeocodeCountry" = some (.str "France") := by
  refine ⟨by decide, by decide, by decide, _, rfl, rfl, ?_, rfl, ?_, rfl⟩
  · intro h
    have h2 : (some JsVal.undefined : Option JsVal) = some (JsVal.str "") := h
    cases h2
  · intro h
    have h2 : (some JsVal.undefined : Option JsVal) = some (JsVal.str "") := h
    cases h2

/-- C6: for every response that is not `ZERO_RESULTS` and has a well-formed
first result, and for each of the categories `locality`,
`administrative_area_level_1` and `country`: when some component of
`address_components` has the category among its `types`, the field of the
outcome for that category is the `long_name` of the first such component in
the order of `address_components`. -/
theorem matched_category_is_first_long_name (address : String) (d : Response)
    (r : GeoResult) (rest : List GeoResult) (g : Geometry) (c : Location)
    (comps : List Component) (category field : String)
    (hstatus : d.status ≠ some "ZERO_RESULTS")
    (hresults : d.results = some (r :: rest))
    (hgeometry : r.geometry = some g)
    (hlocation : g.location = some c)
    (hcomps : r.address_components = some comps)
    (hcat : (category, field) ∈ categoryFields)
    (hex : ∃ x ∈ comps, category ∈ x.types) :
    ∃ (pre : List Component) (v : Component) (post : List Component) (updates : Fields),
      comps = pre ++ v :: post ∧
      (∀ x ∈ pre, category ∉ x.types) ∧
      category ∈ v.types ∧
      geocodeCallback address (.data d) = some (g.location_type, updates) ∧
      updates.lookup field = some v.long_name := by
  obtain ⟨pre, v, post, he, hpre, hv⟩ := exists_first category comps hex
  refine ⟨pre, v, post, _, he, hpre, hv,
    geocodeCallback_resolved address d r rest g c hstatus hresults hgeometry hlocation, ?_⟩
  have hf := firstLongName_first category v post pre hpre hv
  rw [hcomps, he]
  simp only [categoryFields, List.mem_cons, Prod.mk.injEq, List.mem_singleton, List.not_mem_nil,
    or_false] at hcat
  rcases hcat with ⟨h1, h2⟩ | ⟨h1, h2⟩ | ⟨h1, h2⟩
  · subst h1 h2
    rw [← hf]; rfl
  · subst h1 h2
    rw [← hf]; rfl
  · subst h1 h2
    rw [← hf]; rfl

/-- C10, evaluated: with `-t CSV` the file is parsed as CSV (line 71 lowers the
case of the option) and the export is written as JSON to
`<base>-output.json` (line 205 compares the option as it was typed). -/
theorem export_format_differs_from_input_format :
    inputFormat "CSV" = Format.csv ∧
    ∀ db : Store,
      (exportRecords "addresses.csv" "CSV" db).format = Format.json ∧
      (exportRecords "addresses.csv" "CSV" db).path = "addresses-output.json" ∧
      (exportRecords "addresses.csv" "CSV" db).docs = db.map (fun d => d.fields) := by
  refine ⟨by decide, fun db => ⟨?_, ?_, ?_⟩⟩
  · simp [exportRecords]
  · have : filename "addresses.csv" = "addresses" := by decide
    simp [exportRecords, this]
  · simp [exportRecords]

/-- Witness of C6: of the two localities of the response the first one, Boston,
is taken. -/
theorem matched_category_is_first_long_name_witness :
    bostonResponse.status ≠ some "ZERO_RESULTS" ∧
    bostonResponse.results = some (bostonResult :: []) ∧
    bostonResult.geometry = some bostonGeometry ∧
    bostonGeometry.location = some bostonLocation ∧
    bostonResult.address_components = some bostonComponents ∧
    ("locality", "GeocodeLocality") ∈ categoryFields ∧
    (∃ x ∈ bostonComponents, "locality" ∈ x.types) ∧
    (∃ (pre : List Component) (v : Component) (post : List Component) (updates : Fields),
      bostonComponents = pre ++ v :: post ∧
      (∀ x ∈ pre, "locality" ∉ x.types) ∧
      "locality" ∈ v.types ∧
      geocodeCallback "Boston" (.data bostonResponse) = some (bostonGeometry.location_type, updates) ∧
      updates.lookup "GeocodeLocality" = some v.long_name) ∧
    (∃ updates : Fields,
      geocodeCallback "Boston" (.data bostonResponse) = some (.str "ROOFTOP", updates) ∧
      updates.lookup "GeocodeLocality" = some (.str "Boston")) :=
  have hex : ∃ x ∈ bostonComponents, "locality" ∈ x.types :=
    ⟨{ long_name := .str "Cambridge", types := ["locality", "political"] },
      List.Mem.tail _ (List.Mem.tail _ (List.Mem.head _)), by decide⟩
  ⟨by decide, rfl, rfl, rfl, rfl, by decide, hex,
    matched_category_is_first_long_name "Boston" bostonResponse bostonResult []
      bostonGeometry bostonLocation bostonComponents "locality" "GeocodeLocality"
      (by decide) rfl rfl rfl rfl (by decide) hex,
    ⟨_, rfl, rfl⟩⟩

/-! ## The iteration: one request at a time -/

/-- C9, evaluated: `async.each` calls the iterator for every document before
any callback of a request runs, so for a batch of two records both calls of
`geocoder.geocode` have been made, and are in flight, when the first
callback has not yet run and no `db.update` has been called; in general,
for a batch without an empty address, the callbacks start in a state in which
all the requests of the batch have been started and the store is as it
was. -/
theorem all_requests_start_before_the_first_callback :
    (∀ (geo : Nat → String → Reply) (argvFields : String) (sched : Schedule)
        (docs : List Doc) (st : RunState),
      (∀ d ∈ docs, address argvFields d ≠ "") →
      (dispatch argvFields docs st).geocoded
        = st.geocoded ++ docs.map (fun d => (d._id, address argvFields d)) ∧
      (dispatch argvFields docs st).geocoded.length = st.geocoded.length + docs.length ∧
      (dispatch argvFields docs st).updated = st.updated ∧
      (dispatch argvFields docs st).db = st.db ∧
      (dispatch argvFields docs st).counter = st.counter ∧
      (eachDoc geo argvFields sched docs st).state.geocoded
        = (dispatch argvFields docs st).geocoded) ∧
    (findUnprocessed twoCities).length = 2 ∧
    (dispatch cityArgv.fields (findUnprocessed twoCities) (initial twoCities)).geocoded
      = [("id1", "Paris"), ("id2", "NoSuchPlace12345")] ∧
    (dispatch cityArgv.fields (findUnprocessed twoCities) (initial twoCities)).updated = [] ∧
    inFlight (dispatch cityArgv.fields (findUnprocessed twoCities) (initial twoCities)) 0
      = 2 := by
  refine ⟨?_, by decide, by decide, by decide, by decide⟩
  intro geo argvFields sched docs st hne
  have ht : throwsAtOnce argvFields docs = false := by
    cases hb : throwsAtOnce argvFields docs with
    | false => rfl
    | true =>
      obtain ⟨d, hd, he⟩ := (throwsAtOnce_iff argvFields docs).mp hb
      exact absurd he (hne d hd)
  have hc := called_eq argvFields docs ht
  refine ⟨by simp [dispatch, hc], by simp [dispatch, hc], rfl, rfl, rfl, ?_⟩
  unfold eachDoc
  simp only [ht, Bool.false_eq_true, if_false]
  split <;> rfl

/-! ## The pipeline driver: the claims -/

/-- C1, as the code has it: in every run, also one that an exception ends,
the records passed to the geocoder and the records updated are among the
records that lack `GeocodeStatus` when the run starts, each at most once,
and a record that already carries a `GeocodeStatus` is neither geocoded nor
updated and stays in the store as it is.  In a run that completes the
records passed to the geocoder and the records updated are exactly the
records that lacked `GeocodeStatus`, each once, and each of them is replaced
in the store by itself with the `updates` of its callback set, the status
of the callback as `GeocodeStatus` among them. -/
theorem only_unprocessed_records_are_geocoded (argv : Argv) (geo : Nat → String → Reply)
    (sched : Schedule) (db : Store) (h : uniqueIds db)
    (hs : sched.valid (findUnprocessed db).length) :
    (((pipeline argv geo sched db).state.geocoded.map Prod.fst).Sublist
      ((findUnprocessed db).map (fun d => d._id))) ∧
    (∀ id ∈ (pipeline argv geo sched db).state.updated,
      id ∈ (findUnprocessed db).map (fun d => d._id)) ∧
    (pipeline argv geo sched db).state.updated.Nodup ∧
    ((findUnprocessed db).map (fun d => d._id)).Nodup ∧
    (∀ (i : Nat) (x : Doc), db[i]? = some x → hasStatus x = true →
      x._id ∉ (pipeline argv geo sched db).state.geocoded.map Prod.fst ∧
      x._id ∉ (pipeline argv geo sched db).state.updated ∧
      (pipeline argv geo sched db).state.db[i]? = some x) ∧
    (∀ (st : RunState) (printed : List (String × Nat)) (written : Export),
      pipeline argv geo sched db = .finished st printed written →
      st.geocoded.map Prod.fst = (findUnprocessed db).map (fun d => d._id) ∧
      st.updated.Perm ((findUnprocessed db).map (fun d => d._id)) ∧
      ∀ (i : Nat) (x : Doc), db[i]? = some x → hasStatus x = false →
        ∃ (k : Nat) (s : JsVal) (u : Fields), (findUnprocessed db)[k]? = some x ∧
          geocodeCallback (address argv.fields x) (geo k (address argv.fields x))
            = some (s, u) ∧
          st.db[i]? = some (x.set u) ∧
          (x.set u).fields.lookup "GeocodeStatus" = some s) := by
  obtain ⟨applied, h1, h2, h3, h4, h5, _, h6⟩ := pipeline_spec argv geo sched db h hs
  have hgeo : ((pipeline argv geo sched db).state.geocoded.map Prod.fst).Sublist
      ((findUnprocessed db).map (fun d => d._id)) := by
    rw [h5, List.map_map]
    exact List.Sublist.map _ (called_sublist argv.fields (findUnprocessed db))
  have hupd : ∀ id ∈ (pipeline argv geo sched db).state.updated,
      id ∈ (findUnprocessed db).map (fun d => d._id) := by
    intro id hid
    rw [h4] at hid
    obtain ⟨p, hp, hpid⟩ := List.mem_map.mp hid
    obtain ⟨k, d, s, hk, hd, _⟩ := h2 p.1 p.2 hp
    rw [← hpid, ← hd]
    exact List.mem_map.mpr ⟨d, List.mem_iff_getElem?.mpr ⟨k, hk⟩, rfl⟩
  refine ⟨hgeo, hupd, by rw [h4]; exact h1, findUnprocessed_nodup db h, ?_, ?_⟩
  · intro i x hx hst
    have hxm : x ∈ db := List.mem_iff_getElem?.mpr ⟨i, hx⟩
    have hnot := not_unprocessed_id db h x hxm hst
    refine ⟨fun hm => hnot (hgeo.subset hm), fun hm => hnot (hupd _ hm), ?_⟩
    rw [h3, getElem_map_state _ db i x hx]
    have hl : applied.lookup x._id = none := by
      apply lookup_of_not_mem
      intro hm
      apply hnot
      apply hupd
      rw [h4]; exact hm
    simp only [hl]
  · intro st printed written hrun
    have hst : (pipeline argv geo sched db).state = st := by rw [hrun]; rfl
    obtain ⟨_, _, hc, _, hall, _, _⟩ := h6 st printed written hrun
    rw [hst] at h3 h4 h5
    refine ⟨by rw [h5, hc, List.map_map]; rfl, ?_, ?_⟩
    · rw [h4]
      apply (List.perm_ext_iff_of_nodup h1 (findUnprocessed_nodup db h)).mpr
      intro id
      constructor
      · intro hid
        have := hupd id (by rw [hst, h4]; exact hid)
        exact this
      · intro hid
        obtain ⟨d, hd, hdid⟩ := List.mem_map.mp hid
        obtain ⟨k, hk⟩ := List.mem_iff_getElem?.mp hd
        obtain ⟨s, u, _, hmem⟩ := hall k d hk
        rw [← hdid]
        exact List.mem_map.mpr ⟨(d._id, u), hmem, rfl⟩
    · intro i x hx hsx
      have hxm : x ∈ db := List.mem_iff_getElem?.mpr ⟨i, hx⟩
      have hmem : x ∈ findUnprocessed db := by simp [findUnprocessed, hxm, hsx]
      obtain ⟨k, hk⟩ := List.mem_iff_getElem?.mp hmem
      obtain ⟨s, u, hans, hin⟩ := hall k x hk
      have hl := lookup_of_mem applied x._id u h1 hin
      refine ⟨k, s, u, hk, hans, ?_, ?_⟩
      · rw [h3, getElem_map_state _ db i x hx]
        simp only [hl]
      · exact geocodeCallback_sets_status _ _ s u hans x.fields

/-- Witness of C1: a store one record of which was geocoded by an earlier run. -/
theorem only_unprocessed_records_are_geocoded_witness :
    uniqueIds halfDone ∧
    single.valid (findUnprocessed halfDone).length ∧
    ((((pipeline cityArgv parisGeocoder single halfDone).state.geocoded.map Prod.fst).Sublist
      ((findUnprocessed halfDone).map (fun d => d._id))) ∧
    (∀ id ∈ (pipeline cityArgv parisGeocoder single halfDone).state.updated,
      id ∈ (findUnprocessed halfDone).map (fun d => d._id)) ∧
    (pipeline cityArgv parisGeocoder single halfDone).state.updated.Nodup ∧
    ((findUnprocessed halfDone).map (fun d => d._id)).Nodup ∧
    (∀ (i : Nat) (x : Doc), halfDone[i]? = some x → hasStatus x = true →
      x._id ∉ (pipeline cityArgv parisGeocoder single halfDone).state.geocoded.map Prod.fst ∧
      x._id ∉ (pipeline cityArgv parisGeocoder single halfDone).state.updated ∧
      (pipeline cityArgv parisGeocoder single halfDone).state.db[i]? = some x) ∧
    (∀ (st : RunState) (printed : List (String × Nat)) (written : Export),
      pipeline cityArgv parisGeocoder single halfDone = .finished st printed written →
      st.geocoded.map Prod.fst = (findUnprocessed halfDone).map (fun d => d._id) ∧
      st.updated.Perm ((findUnprocessed halfDone).map (fun d => d._id)) ∧
      ∀ (i : Nat) (x : Doc), halfDone[i]? = some x → hasStatus x = false →
        ∃ (k : Nat) (s : JsVal) (u : Fields), (findUnprocessed halfDone)[k]? = some x ∧
          geocodeCallback (address cityArgv.fields x) (parisGeocoder k (address cityArgv.fields x))
            = some (s, u) ∧
          st.db[i]? = some (x.set u) ∧
          (x.set u).fields.lookup "GeocodeStatus" = some s)) :=
  ⟨by decide, by decide,
    only_unprocessed_records_are_geocoded cityArgv parisGeocoder single halfDone
      (by decide) (by decide)⟩

/-- C1, the counterexample: with a geocoder that is not reachable the first
callback throws and none of the two records that lack `GeocodeStatus` is
updated, both being unprocessed still when the run has ended; and in a store
whose first record has no city the iterator throws on the empty address, so
that the second record, which lacks `GeocodeStatus` too, is not passed to the
geocoder. -/
theorem aborted_run_updates_no_record :
    uniqueIds twoCities ∧
    inOrder.valid (findUnprocessed twoCities).length ∧
    (findUnprocessed twoCities).map (fun d => d._id) = ["id1", "id2"] ∧
    (∀ (st : RunState) (printed : List (String × Nat)) (written : Export),
      pipeline cityArgv unreachable inOrder twoCities ≠ .finished st printed written) ∧
    (pipeline cityArgv unreachable inOrder twoCities).state.geocoded.map Prod.fst
      = ["id1", "id2"] ∧
    (pipeline cityArgv unreachable inOrder twoCities).state.updated = [] ∧
    (pipeline cityArgv unreachable inOrder twoCities).state.updated
      ≠ (findUnprocessed twoCities).map (fun d => d._id) ∧
    findUnprocessed (pipeline cityArgv unreachable inOrder twoCities).state.db = twoCities ∧
    uniqueIds cityMissing ∧
    (findUnprocessed cityMissing).map (fun d => d._id) = ["id1", "id2"] ∧
    (pipeline cityArgv parisGeocoder inOrder cityMissing).state.geocoded = [("id1", "")] ∧
    (pipeline cityArgv parisGeocoder inOrder cityMissing).state.geocoded.map Prod.fst
      ≠ (findUnprocessed cityMissing).map (fun d => d._id) ∧
    (pipeline cityArgv parisGeocoder inOrder cityMissing).state.updated = [] := by
  refine ⟨by decide, by decide, by decide, ?_, by decide, by decide, by decide, rfl,
    by decide, by decide, by decide, by decide, by decide⟩
  intro st printed written hrun
  have hc : pipeline cityArgv unreachable inOrder twoCities
      = .crashed (pipeline cityArgv unreachable inOrder twoCities).state := rfl
  rw [hc] at hrun
  cases hrun

/-- C2, as the code has it: for every store and all answers of the geocoder
with which a first run completes and none of which is a resolved response
without a `location_type`, a second run on the store the first run left (no
record added, whatever the options, the geocoder and the schedule) finds no
unprocessed record, passes no record to the geocoder, updates none and leaves
every record of the store as it is. -/
theorem second_run_geocodes_no_record (argv argv2 : Argv) (geo geo2 : Nat → String → Reply)
    (sched sched2 : Schedule) (db : Store) (st : RunState) (printed : List (String × Nat))
    (written : Export) (h : uniqueIds db) (hs : sched.valid (findUnprocessed db).length)
    (hrun : pipeline argv geo sched db = .finished st printed written)
    (hstatus : ∀ (k : Nat) (d : Doc) (r : Response) (res : GeoResult) (rest : List GeoResult)
      (g : Geometry), (findUnprocessed db)[k]? = some d →
      geo k (address argv.fields d) = .data r → r.status ≠ some "ZERO_RESULTS" →
      r.results = some (res :: rest) → res.geometry = some g →
      g.location_type ≠ .undefined) :
    findUnprocessed st.db = [] ∧
    (pipeline argv2 geo2 sched2 st.db).state.geocoded = [] ∧
    (pipeline argv2 geo2 sched2 st.db).state.updated = [] ∧
    (pipeline argv2 geo2 sched2 st.db).state.db = st.db := by
  obtain ⟨applied, h1, h2, h3, h4, h5, _, h6⟩ := pipeline_spec argv geo sched db h hs
  have hst : (pipeline argv geo sched db).state = st := by rw [hrun]; rfl
  obtain ⟨_, _, _, _, hall, _, _⟩ := h6 st printed written hrun
  rw [hst] at h3
  have hnone : findUnprocessed st.db = [] := by
    unfold findUnprocessed
    rw [List.filter_eq_nil_iff]
    intro y hy
    rw [h3] at hy
    obtain ⟨x, hx, hxy⟩ := List.mem_map.mp hy
    subst hxy
    by_cases hsx : hasStatus x = true
    · have hl : applied.lookup x._id = none := by
        apply lookup_of_not_mem
        intro hm
        apply not_unprocessed_id db h x hx hsx
        obtain ⟨p, hp, hpid⟩ := List.mem_map.mp hm
        obtain ⟨k, d, s, hk, hd, _⟩ := h2 p.1 p.2 hp
        rw [← hpid, ← hd]
        exact List.mem_map.mpr ⟨d, List.mem_iff_getElem?.mpr ⟨k, hk⟩, rfl⟩
      simp only [hl, hsx, Bool.not_true, Bool.false_eq_true, not_false_eq_true]
    · have hs2 : hasStatus x = false := by simpa using hsx
      have hmem : x ∈ findUnprocessed db := by simp [findUnprocessed, hx, hs2]
      obtain ⟨k, hk⟩ := List.mem_iff_getElem?.mp hmem
      obtain ⟨s, u, hans, hin⟩ := hall k x hk
      have hl := lookup_of_mem applied x._id u h1 hin
      have hlook := geocodeCallback_sets_status _ _ s u hans x.fields
      have hsne : s ≠ .undefined := by
        obtain ⟨r, hr, hcase⟩ := answer_cases geo argv.fields k x s u hans
        rcases hcase with ⟨_, hv⟩ | ⟨hz, res, rest, g, hres, hg, hv⟩
        · rw [hv]; intro hc; cases hc
        · rw [hv]; exact hstatus k x r res rest g hk hr hz hres hg
      have := hasStatus_of_lookup (x.set u) s hlook hsne
      simp only [hl, this, Bool.not_true, Bool.false_eq_true, not_false_eq_true]
  rw [pipeline_of_none argv2 geo2 sched2 st.db hnone]
  exact ⟨hnone, rfl, rfl, rfl⟩

/-- Witness of C2: the store of two cities, geocoded once. -/
theorem second_run_geocodes_no_record_witness :
    uniqueIds twoCities ∧
    inOrder.valid (findUnprocessed twoCities).length ∧
    (pipeline cityArgv parisGeocoder inOrder twoCities = .finished firstRun
        [("APPROXIMATE", 1), ("ZERO_RESULTS", 1)]
        (exportRecords "cities.json" "json" firstRun.db)) ∧
    (∀ (k : Nat) (d : Doc) (r : Response) (res : GeoResult) (rest : List GeoResult)
      (g : Geometry), (findUnprocessed twoCities)[k]? = some d →
      parisGeocoder k (address cityArgv.fields d) = .data r → r.status ≠ some "ZERO_RESULTS" →
      r.results = some (res :: rest) → res.geometry = some g →
      g.location_type ≠ .undefined) ∧
    (findUnprocessed firstRun.db = [] ∧
    (pipeline cityArgv unreachable single firstRun.db).state.geocoded = [] ∧
    (pipeline cityArgv unreachable single firstRun.db).state.updated = [] ∧
    (pipeline cityArgv unreachable single firstRun.db).state.db = firstRun.db) :=
  have hstatus : ∀ (k : Nat) (d : Doc) (r : Response) (res : GeoResult) (rest : List GeoResult)
      (g : Geometry), (findUnprocessed twoCities)[k]? = some d →
      parisGeocoder k (address cityArgv.fields d) = .data r → r.status ≠ some "ZERO_RESULTS" →
      r.results = some (res :: rest) → res.geometry = some g →
      g.location_type ≠ .undefined := by
    intro k d r res rest g _ hr hz hres hg
    rw [parisGeocoder_location_type k _ r res rest g hr hz hres hg]
    intro hc
    cases hc
  ⟨by decide, by decide, rfl, hstatus,
    second_run_geocodes_no_record cityArgv cityArgv parisGeocoder unreachable inOrder single
      twoCities _ _ _ (by decide) (by decide) rfl hstatus⟩

/-- C2, the counterexample: after a first run that completes on the store of
two cities no record is unprocessed, and the second run ends in the
exception of the progress bar, before any summary is printed; and when the
response to the only record of a store has no `location_type` the first run
completes, the record is unprocessed still, and the second run passes it to
the geocoder again. -/
theorem second_run_prints_no_summary :
    uniqueIds twoCities ∧
    inOrder.valid (findUnprocessed twoCities).length ∧
    pipeline cityArgv parisGeocoder inOrder twoCities
      = .finished firstRun
        [("APPROXIMATE", 1), ("ZERO_RESULTS", 1)]
          (exportRecords "cities.json" "json" firstRun.db) ∧
    findUnprocessed firstRun.db = [] ∧
    (∀ (st : RunState) (printed : List (String × Nat)) (written : Export),
      pipeline cityArgv parisGeocoder inOrder firstRun.db
        ≠ .finished st printed written) ∧
    uniqueIds oneCity ∧
    single.valid (findUnprocessed oneCity).length ∧
    pipeline cityArgv bareGeocoder single oneCity
      = .finished bareRun
          [("undefined", 1)]
          (exportRecords "cities.json" "json" bareRun.db) ∧
    (findUnprocessed bareRun.db).map
        (fun d => d._id) = ["id1"] ∧
    (pipeline cityArgv bareGeocoder single
        bareRun.db).state.geocoded
      = [("id1", "Paris")] := by
  refine ⟨by decide, by decide, rfl, rfl, ?_, by decide, by decide, rfl, by decide, by decide⟩
  intro st printed written hrun
  have hc : pipeline cityArgv parisGeocoder inOrder firstRun.db
      = .crashed (initial firstRun.db) := rfl
  rw [hc] at hrun
  cases hrun

/-- C7, as the code has it: when the geocoding of a record of the batch fails
(the client reports an error, at once for an empty address or later, or the
response is not `ZERO_RESULTS` and has no `results`, no first result or no
`geometry`), a callback throws and the run is aborted: no summary is printed,
no export is written, and the record stays in the store as it was, without
a `GeocodeStatus`; every other record either is as it was or carries the
`updates` of its own callback, which returned. -/
theorem failed_geocoding_aborts_the_run (argv : Argv) (geo : Nat → String → Reply)
    (sched : Schedule) (db : Store) (k : Nat) (d : Doc) (h : uniqueIds db)
    (hs : sched.valid (findUnprocessed db).length)
    (hk : (findUnprocessed db)[k]? = some d)
    (hfail : address argv.fields d = "" ∨ geo k (address argv.fields d) = .err ∨
      ∃ r, geo k (address argv.fields d) = .data r ∧ r.status ≠ some "ZERO_RESULTS" ∧
        (r.results = none ∨ r.results = some [] ∨
          ∃ res rest, r.results = some (res :: rest) ∧ res.geometry = none)) :
    ∃ st : RunState,
      pipeline argv geo sched db = .crashed st ∧
      hasStatus d = false ∧
      (∀ i : Nat, db[i]? = some d → st.db[i]? = some d) ∧
      (∀ (i : Nat) (x : Doc), db[i]? = some x →
        st.db[i]? = some x ∨
        ∃ (j : Nat) (s : JsVal) (u : Fields), (findUnprocessed db)[j]? = some x ∧
          geocodeCallback (address argv.fields x) (geo j (address argv.fields x))
            = some (s, u) ∧
          st.db[i]? = some (x.set u)) := by
  obtain ⟨applied, h1, h2, h3, h4, h5, hempty, h6⟩ := pipeline_spec argv geo sched db h hs
  have hdm : d ∈ findUnprocessed db := List.mem_iff_getElem?.mpr ⟨k, hk⟩
  have hnone : address argv.fields d ≠ "" → answer geo argv.fields (k, d) = none := by
    intro hne
    rcases hfail with he | he | he
    · exact absurd he hne
    · exact geocodeCallback_failed _ _ (Or.inl he)
    · exact geocodeCallback_failed _ _ (Or.inr he)
  have hnotfin : ∀ (st : RunState) (printed : List (String × Nat)) (written : Export),
      pipeline argv geo sched db ≠ .finished st printed written := by
    intro st printed written hrun
    obtain ⟨_, _, _, hne, hall, _, _⟩ := h6 st printed written hrun
    obtain ⟨s, u, hans, _⟩ := hall k d hk
    rw [hnone (hne d hdm)] at hans
    cases hans
  have hd : applied.lookup d._id = none := by
    cases hl : applied.lookup d._id with
    | none => rfl
    | some u =>
      exfalso
      have hmem := mem_of_lookup applied d._id u hl
      by_cases hne : address argv.fields d = ""
      · rw [hempty ⟨d, hdm, hne⟩] at hmem
        cases hmem
      · obtain ⟨n, e, s, hn, heid, hans⟩ := h2 d._id u hmem
        have hem : e ∈ findUnprocessed db := List.mem_iff_getElem?.mpr ⟨n, hn⟩
        have hed : e = d :=
          mem_unique db h e d (findUnprocessed_sub db e hem).1 (findUnprocessed_sub db d hdm).1 heid
        subst hed
        have hkn := index_unique (findUnprocessed db) n k e (findUnprocessed_nodup db h) hn hk
        subst hkn
        rw [hnone hne] at hans
        cases hans
  cases hP : pipeline argv geo sched db with
  | finished st printed written => exact absurd hP (hnotfin st printed written)
  | crashed st =>
    rw [hP] at h3
    simp only [Outcome.state] at h3
    refine ⟨st, rfl, (findUnprocessed_sub db d hdm).2, ?_, ?_⟩
    · intro i hi
      rw [h3, getElem_map_state _ db i d hi]
      simp only [hd]
    · intro i x hi
      have hxm : x ∈ db := List.mem_iff_getElem?.mpr ⟨i, hi⟩
      rw [h3, getElem_map_state _ db i x hi]
      cases hl : applied.lookup x._id with
      | none => left; rfl
      | some u =>
        right
        obtain ⟨n, e, s, hn, heid, hans⟩ := h2 x._id u (mem_of_lookup applied x._id u hl)
        have hem : e ∈ findUnprocessed db := List.mem_iff_getElem?.mpr ⟨n, hn⟩
        have hex : e = x := mem_unique db h e x (findUnprocessed_sub db e hem).1 hxm heid
        subst hex
        exact ⟨n, s, u, hn, hans, rfl⟩

/-- Witness of C7: three records, the answer to the second call has no result,
and the update asked for last before the exception is not carried out. -/
theorem failed_geocoding_aborts_the_run_witness :
    uniqueIds threeCities ∧
    lossy.valid (findUnprocessed threeCities).length ∧
    ((findUnprocessed threeCities)[1]? = some lyon) ∧
    (address cityArgv.fields lyon = "" ∨ secondDenied 1 (address cityArgv.fields lyon) = .err ∨
      ∃ r, secondDenied 1 (address cityArgv.fields lyon) = .data r ∧ r.status ≠ some "ZERO_RESULTS" ∧
        (r.results = none ∨ r.results = some [] ∨
          ∃ res rest, r.results = some (res :: rest) ∧ res.geometry = none)) ∧
    (∃ st : RunState,
      pipeline cityArgv secondDenied lossy threeCities = .crashed st ∧
      hasStatus lyon = false ∧
      (∀ i : Nat, threeCities[i]? = some lyon → st.db[i]? = some lyon) ∧
      (∀ (i : Nat) (x : Doc), threeCities[i]? = some x →
        st.db[i]? = some x ∨
        ∃ (j : Nat) (s : JsVal) (u : Fields), (findUnprocessed threeCities)[j]? = some x ∧
          geocodeCallback (address cityArgv.fields x) (secondDenied j (address cityArgv.fields x))
            = some (s, u) ∧
          st.db[i]? = some (x.set u))) :=
  ⟨by decide, by decide, rfl,
    Or.inr (Or.inr ⟨deniedResponse, rfl, by decide, Or.inr (Or.inl rfl)⟩),
    failed_geocoding_aborts_the_run cityArgv secondDenied lossy threeCities 1 lyon
      (by decide) (by decide) rfl
      (Or.inr (Or.inr ⟨deniedResponse, rfl, by decide, Or.inr (Or.inl rfl)⟩))⟩

/-- C7, the counterexample: of three records the second gets a response
without result; the run does not complete, no summary is printed and no
export is written, the second record is left without any `GeocodeStatus`,
an error marker included, and the first record, whose callback had returned,
and the third are not persisted either. -/
theorem failed_record_gets_no_status :
    uniqueIds threeCities ∧
    lossy.valid (findUnprocessed threeCities).length ∧
    (findUnprocessed threeCities).map (fun d => d._id) = ["id1", "id2", "id3"] ∧
    deniedResponse.status ≠ some "ZERO_RESULTS" ∧
    deniedResponse.results = some [] ∧
    secondDenied 1 (address cityArgv.fields lyon) = .data deniedResponse ∧
    geocodeCallback (address cityArgv.fields lyon)
      (secondDenied 1 (address cityArgv.fields lyon)) = none ∧
    (∀ (st : RunState) (printed : List (String × Nat)) (written : Export),
      pipeline cityArgv secondDenied lossy threeCities ≠ .finished st printed written) ∧
    abortedRun.db[1]? = some lyon ∧
    lyon.fields.lookup "GeocodeStatus" = none ∧
    persistedStatus abortedRun.db "id2" = none ∧
    persistedStatus abortedRun.db "id1" = none ∧
    persistedStatus abortedRun.db "id3" = none ∧
    findUnprocessed abortedRun.db
      = threeCities := by
  refine ⟨by decide, by decide, by decide, by decide, rfl, rfl, rfl, ?_, rfl, rfl, by decide,
    by decide, by decide, rfl⟩
  intro st printed written hrun
  have hc : pipeline cityArgv secondDenied lossy threeCities
      = .crashed abortedRun := rfl
  rw [hc] at hrun
  cases hrun

/-- C8, as the code has it: for every run that completes and in which the
`location_type` of every resolved response is a string other than
`__proto__`, the summary printed maps each status `s` to the number of
records processed in the run that carry `s` as their `GeocodeStatus` in the
store afterwards, a status with count zero not being a key and no key
occurring twice; the status persisted for a record is `"ZERO_RESULTS"` when
the response to its call has that top-level status and otherwise the
`location_type` of the geometry of the first result; and the counts add up
to the number of records that were unprocessed when the run started. -/
theorem summary_counts_persisted_statuses (argv : Argv) (geo : Nat → String → Reply)
    (sched : Schedule) (db : Store) (st : RunState) (printed : List (String × Nat))
    (written : Export) (h : uniqueIds db) (hs : sched.valid (findUnprocessed db).length)
    (hrun : pipeline argv geo sched db = .finished st printed written)
    (htype : ∀ (k : Nat) (d : Doc) (r : Response) (res : GeoResult) (rest : List GeoResult)
      (g : Geometry), (findUnprocessed db)[k]? = some d →
      geo k (address argv.fields d) = .data r → r.status ≠ some "ZERO_RESULTS" →
      r.results = some (res :: rest) → res.geometry = some g →
      ∃ t : String, g.location_type = .str t ∧ t ≠ "__proto__") :
    (∀ s : String,
      printed.lookup s
        = if (findUnprocessed db).countP
              (fun d => decide (persistedStatus st.db d._id = some s)) = 0 then none
          else some ((findUnprocessed db).countP
              (fun d => decide (persistedStatus st.db d._id = some s)))) ∧
    (∀ (k : Nat) (d : Doc) (r : Response), (findUnprocessed db)[k]? = some d →
      geo k (address argv.fields d) = .data r →
      (r.status = some "ZERO_RESULTS" →
        persistedStatus st.db d._id = some "ZERO_RESULTS") ∧
      (∀ (res : GeoResult) (rest : List GeoResult) (g : Geometry) (t : String),
        r.status ≠ some "ZERO_RESULTS" → r.results = some (res :: rest) →
        res.geometry = some g → g.location_type = .str t →
        persistedStatus st.db d._id = some t)) ∧
    (printed.map Prod.fst).Nodup ∧
    (printed.map Prod.snd).sum = (findUnprocessed db).length := by
  obtain ⟨applied, h1, h2, h3, h4, h5, _, h6⟩ := pipeline_spec argv geo sched db h hs
  have hst : (pipeline argv geo sched db).state = st := by rw [hrun]; rfl
  obtain ⟨hp, _, _, _, hall, hjobs, hsum⟩ := h6 st printed written hrun
  rw [hst] at h3
  -- the status of a callback is a string, and it is the status persisted
  have key : ∀ (k : Nat) (d : Doc) (v : JsVal) (u : Fields),
      (findUnprocessed db)[k]? = some d → answer geo argv.fields (k, d) = some (v, u) →
      ∃ t : String, v = .str t ∧ t ≠ "__proto__" ∧ persistedStatus st.db d._id = some t := by
    intro k d v u hk hans
    obtain ⟨s2, u2, hans2, hin⟩ := hall k d hk
    rw [hans] at hans2
    simp only [Option.some.injEq, Prod.mk.injEq] at hans2
    obtain ⟨e1, e2⟩ := hans2
    subst e1 e2
    have hstr : ∃ t : String, v = .str t ∧ t ≠ "__proto__" := by
      obtain ⟨r, hr, hcase⟩ := answer_cases geo argv.fields k d v u hans
      rcases hcase with ⟨_, hv⟩ | ⟨hz, res, rest, g, hres, hg, hv⟩
      · exact ⟨"ZERO_RESULTS", hv, by decide⟩
      · rw [hv]; exact htype k d r res rest g hk hr hz hres hg
    obtain ⟨t, hv, ht⟩ := hstr
    refine ⟨t, hv, ht, ?_⟩
    have hdm : d ∈ db :=
      (findUnprocessed_sub db d (List.mem_iff_getElem?.mpr ⟨k, hk⟩)).1
    have hl := lookup_of_mem applied d._id u h1 hin
    have hlook := geocodeCallback_sets_status _ _ v u hans d.fields
    unfold persistedStatus
    rw [h3, find_map_id _ (fun x => by cases applied.lookup x._id <;> rfl), find_of_mem db h d hdm]
    simp only [Option.map_some', hl, Doc.set]
    rw [hlook, hv]
  -- the keys counted are the statuses persisted, job by job
  have hkeys : (jobs sched.arrival (findUnprocessed db)).map
        (fun j => persistedStatus st.db j.2._id)
      = (st.summary.map JsVal.toStr).map some := by
    rw [hsum]
    have : ∀ (js : List (Nat × Doc)), (∀ j ∈ js, j ∈ jobs sched.arrival (findUnprocessed db)) →
        js.map (fun j => persistedStatus st.db j.2._id)
          = ((js.filterMap (fun j => (answer geo argv.fields j).map Prod.fst)).map
              JsVal.toStr).map some := by
      intro js
      induction js with
      | nil => intro _; rfl
      | cons j rest ih =>
        intro hsub
        have hj := hsub j (List.mem_cons_self _ _)
        obtain ⟨o, ho⟩ := hjobs j hj
        obtain ⟨t, hv, _, hpers⟩ := key j.1 j.2 o.1 o.2 (jobs_index _ _ j hj) ho
        simp only [List.map_cons, List.filterMap_cons, ho, Option.map_some']
        rw [ih (fun x hx => hsub x (List.mem_cons_of_mem _ hx)), hpers, hv]
        rfl
    exact this _ (fun j hj => hj)
  have hcount : ∀ s : String,
      (findUnprocessed db).countP (fun d => decide (persistedStatus st.db d._id = some s))
        = (st.summary.map JsVal.toStr).count s := by
    intro s
    have hperm := jobs_perm sched (findUnprocessed db) hs
    rw [← List.Perm.countP_eq _ hperm, List.countP_map]
    exact countP_eq_count (jobs sched.arrival (findUnprocessed db))
      (fun j => persistedStatus st.db j.2._id) _ s hkeys
  have hnoproto : ∀ v ∈ st.summary, v.toStr ≠ "__proto__" := by
    intro v hv
    rw [hsum] at hv
    obtain ⟨j, hj, hjv⟩ := List.mem_filterMap.mp hv
    obtain ⟨o, ho⟩ := hjobs j hj
    obtain ⟨t, hvt, ht, _⟩ := key j.1 j.2 o.1 o.2 (jobs_index _ _ j hj) ho
    rw [ho] at hjv
    simp only [Option.map_some', Option.some.injEq] at hjv
    rw [← hjv, hvt]
    exact ht
  have hlen : st.summary.length = (findUnprocessed db).length := by
    have := congrArg List.length hkeys
    simp only [List.length_map] at this
    rw [← this, ← List.length_map (jobs sched.arrival (findUnprocessed db)) Prod.snd]
    exact (jobs_perm sched (findUnprocessed db) hs).length_eq
  refine ⟨?_, ?_, ?_, ?_⟩
  · intro s
    rw [hcount s]
    by_cases hsp : s = "__proto__"
    · subst hsp
      rw [hp, no_proto_countBy]
      have hz : (st.summary.map JsVal.toStr).count "__proto__" = 0 := by
        rw [List.count_eq_zero]
        intro hm
        obtain ⟨v, hv, hvs⟩ := List.mem_map.mp hm
        exact hnoproto v hv hvs
      simp [hz]
    · rw [hp, lookup_countBy st.summary s hsp]
  · intro k d r hk hr
    obtain ⟨s, u, hans, _⟩ := hall k d hk
    obtain ⟨t, hv, _, hpers⟩ := key k d s u hk hans
    have hcb : geocodeCallback (address argv.fields d) (.data r) = some (s, u) := by
      rw [← hr]; exact hans
    refine ⟨?_, ?_⟩
    · intro hz
      rw [geocodeCallback_zero _ r hz] at hcb
      simp only [Option.some.injEq, Prod.mk.injEq] at hcb
      rw [hpers]
      have : JsVal.str "ZERO_RESULTS" = JsVal.str t := by rw [← hv]; exact hcb.1
      injection this with e
      rw [e]
    · intro res rest g t2 hz hres hg hlt
      cases hl : g.location with
      | none => simp [geocodeCallback, hz, hres, hg, hl] at hcb
      | some c =>
        rw [geocodeCallback_resolved _ r res rest g c hz hres hg hl] at hcb
        simp only [Option.some.injEq, Prod.mk.injEq] at hcb
        rw [hpers]
        have : JsVal.str t2 = JsVal.str t := by rw [← hv, ← hlt]; exact hcb.1
        injection this with e
        rw [e]
  · rw [hp]; exact nodup_keys_countBy st.summary
  · rw [hp, sum_countBy st.summary hnoproto, hlen]

/-- Witness of C8: two records, one resolved and one without result, give the
summary `APPROXIMATE: 1, ZERO_RESULTS: 1`. -/
theorem summary_counts_persisted_statuses_witness :
    uniqueIds twoCities ∧
    inOrder.valid (findUnprocessed twoCities).length ∧
    (pipeline cityArgv parisGeocoder inOrder twoCities = .finished firstRun
        [("APPROXIMATE", 1), ("ZERO_RESULTS", 1)]
        (exportRecords "cities.json" "json" firstRun.db)) ∧
    (∀ (k : Nat) (d : Doc) (r : Response) (res : GeoResult) (rest : List GeoResult)
      (g : Geometry), (findUnprocessed twoCities)[k]? = some d →
      parisGeocoder k (address cityArgv.fields d) = .data r → r.status ≠ some "ZERO_RESULTS" →
      r.results = some (res :: rest) → res.geometry = some g →
      ∃ t : String, g.location_type = .str t ∧ t ≠ "__proto__") ∧
    ((∀ s : String,
      ([("APPROXIMATE", 1), ("ZERO_RESULTS", 1)] : List (String × Nat)).lookup s
        = if (findUnprocessed twoCities).countP
              (fun d => decide (persistedStatus firstRun.db d._id = some s)) = 0 then none
          else some ((findUnprocessed twoCities).countP
              (fun d => decide (persistedStatus firstRun.db d._id = some s)))) ∧
    (∀ (k : Nat) (d : Doc) (r : Response), (findUnprocessed twoCities)[k]? = some d →
      parisGeocoder k (address cityArgv.fields d) = .data r →
      (r.status = some "ZERO_RESULTS" →
        persistedStatus firstRun.db d._id = some "ZERO_RESULTS") ∧
      (∀ (res : GeoResult) (rest : List GeoResult) (g : Geometry) (t : String),
        r.status ≠ some "ZERO_RESULTS" → r.results = some (res :: rest) →
        res.geometry = some g → g.location_type = .str t →
        persistedStatus firstRun.db d._id = some t)) ∧
    (([("APPROXIMATE", 1), ("ZERO_RESULTS", 1)] : List (String × Nat)).map Prod.fst).Nodup ∧
    (([("APPROXIMATE", 1), ("ZERO_RESULTS", 1)] : List (String × Nat)).map Prod.snd).sum = (findUnprocessed twoCities).length) :=
  have htype : ∀ (k : Nat) (d : Doc) (r : Response) (res : GeoResult) (rest : List GeoResult)
      (g : Geometry), (findUnprocessed twoCities)[k]? = some d →
      parisGeocoder k (address cityArgv.fields d) = .data r → r.status ≠ some "ZERO_RESULTS" →
      r.results = some (res :: rest) → res.geometry = some g →
      ∃ t : String, g.location_type = .str t ∧ t ≠ "__proto__" := by
    intro k d r res rest g _ hr hz hres hg
    exact ⟨"APPROXIMATE", parisGeocoder_location_type k _ r res rest g hr hz hres hg,
      by decide⟩
  ⟨by decide, by decide, rfl, htype,
    summary_counts_persisted_statuses cityArgv parisGeocoder inOrder twoCities _ _ _
      (by decide) (by decide) rfl htype⟩

/-- C8, the counterexample: when the response to the only record of a store
has no `location_type` the run completes and the summary counts one record
under `undefined`, while no record carries a `GeocodeStatus` in the store;
and when the `location_type` is the string `__proto__` the run completes,
the record carries that status, and the summary is empty, so that its counts
add up to zero for one record processed. -/
theorem summary_can_differ_from_persisted_statuses :
    uniqueIds oneCity ∧
    single.valid (findUnprocessed oneCity).length ∧
    (findUnprocessed oneCity).length = 1 ∧
    pipeline cityArgv bareGeocoder single oneCity
      = .finished bareRun
          [("undefined", 1)]
          (exportRecords "cities.json" "json" bareRun.db) ∧
    persistedStatus bareRun.db "id1" = none ∧
    (findUnprocessed oneCity).countP (fun d => decide (persistedStatus
        bareRun.db d._id = some "undefined"))
      = 0 ∧
    pipeline cityArgv protoGeocoder single oneCity
      = .finished protoRun
          []
          (exportRecords "cities.json" "json" protoRun.db) ∧
    persistedStatus protoRun.db "id1"
      = some "__proto__" ∧
    (([] : List (String × Nat)).map Prod.snd).sum ≠ (findUnprocessed oneCity).length :=
  ⟨by decide, by decide, by decide, rfl, by decide, by decide, rfl, by decide, by decide⟩
end Geocoder
